import Mathlib

/-!
Configuration resolution of mcp-proxy (`config.go`)

A shallow embedding of `parseMCPClientConfigV1`, `parseMCPClientConfigV2` and
`LoadConfig`, followed by theorems about them.

Modelling conventions

* A Go pointer `*T` is `Option T` (`none` is the nil pointer).
* A Go slice `[]string` is `Option (List String)`: `none` is the nil slice,
  `some []` the empty non-nil slice.
* A Go map `map[string]V` is `Option (List (String × V))`: `none` is the nil
  map, the list enumerates the entries in the order in which `range` visits
  them; a well-formed map has pairwise distinct keys.
* `time.Duration` is `Int`.
* `optional.Field[bool]` (package `optional-go`) is `Option Bool`:
  `Present()` is `Option.isSome`.
* A Go call either returns a value, returns an `error`, or panics on a nil
  dereference: `Except Failure α`.
-/

namespace McpProxy

/-! ## Go runtime vocabulary -/

deriving instance DecidableEq for Except

/-- Ways in which a Go call fails to return a value: an `error` result with
its message, or the run-time panic raised by dereferencing a nil pointer. -/
inductive Failure where
  | error (msg : String)
  | nilDereference
  deriving DecidableEq, Repr

/-- Go slice of strings; `none` is the nil slice. -/
abbrev StringSlice := Option (List String)

/-- Go `map[string]string`; `none` is the nil map. -/
abbrev StringMap := Option (List (String × String))

/-- Go `map[string]V`; `none` is the nil map. -/
abbrev GoMap (V : Type) := Option (List (String × V))

/-- Go builtin `len` on a slice. -/
def sliceLen (s : StringSlice) : Nat :=
  match s with
  | none => 0
  | some l => l.length

/-- Go builtin `len` on a map. -/
def mapLen {V : Type} (m : GoMap V) : Nat :=
  match m with
  | none => 0
  | some l => l.length

/-- Go builtin `append(s, t...)`: appending no element returns `s` itself
(nil stays nil), appending at least one element returns a non-nil slice. -/
def goAppend (s t : StringSlice) : StringSlice :=
  if sliceLen t = 0 then s else some (s.getD [] ++ t.getD [])

/-- Go map assignment `m[k] = v` on the entry list: the value of an existing
key is replaced, a new key is added. -/
def mapSet {V : Type} (m : List (String × V)) (k : String) (v : V) : List (String × V) :=
  match m with
  | [] => [(k, v)]
  | (k0, v0) :: rest => if k0 = k then (k, v) :: rest else (k0, v0) :: mapSet rest k v

/-! ## Transport variants -/

structure StdioMCPClientConfig where
  Command : String
  Env : StringMap
  Args : StringSlice
  deriving DecidableEq, Repr

structure SSEMCPClientConfig where
  URL : String
  Headers : StringMap
  deriving DecidableEq, Repr

structure StreamableMCPClientConfig where
  URL : String
  Headers : StringMap
  Timeout : Int
  deriving DecidableEq, Repr

abbrev MCPClientType := String

def MCPClientTypeStdio : MCPClientType := "stdio"
def MCPClientTypeSSE : MCPClientType := "sse"
def MCPClientTypeStreamable : MCPClientType := "streamable-http"

/-- The dynamic type behind the `any` returned by the two parsers: a pointer
to one of the three transport records. -/
inductive ClientInfo where
  | stdio (c : StdioMCPClientConfig)
  | sse (c : SSEMCPClientConfig)
  | streamable (c : StreamableMCPClientConfig)
  deriving DecidableEq, Repr

/-! ## V1 (deprecated schema) -/

/-- Bytes of a `json.RawMessage`. -/
abbrev RawMessage := String

/-- The field `Type` of the source is written `Type_`, `Type` being reserved. -/
structure MCPClientConfigV1 where
  Type_ : MCPClientType
  Config : RawMessage
  PanicIfInvalid : Bool
  LogEnabled : Bool
  AuthTokens : StringSlice
  deriving DecidableEq, Repr

structure MCPProxyConfigV1 where
  BaseURL : String
  Addr : String
  Name : String
  Version : String
  GlobalAuthTokens : StringSlice
  deriving DecidableEq, Repr

/-- The three uses of `json.Unmarshal` in `parseMCPClientConfigV1`, one per
target type. `encoding/json` is a collaborator of this program, so the
decoders are a parameter: each maps the raw payload to the decoded record or
to the message of the decoding error. -/
structure Unmarshal where
  stdio : RawMessage → Except String StdioMCPClientConfig
  sse : RawMessage → Except String SSEMCPClientConfig
  streamable : RawMessage → Except String StreamableMCPClientConfig

def parseMCPClientConfigV1 (json : Unmarshal) (conf : Option MCPClientConfigV1) :
    Except Failure ClientInfo :=
  match conf with
  | none => .error .nilDereference
  | some conf =>
    if conf.Type_ = MCPClientTypeStdio then
      match json.stdio conf.Config with
      | .error err => .error (.error err)
      | .ok config => .ok (.stdio config)
    else if conf.Type_ = MCPClientTypeSSE then
      match json.sse conf.Config with
      | .error err => .error (.error err)
      | .ok config => .ok (.sse config)
    else if conf.Type_ = MCPClientTypeStreamable then
      match json.streamable conf.Config with
      | .error err => .error (.error err)
      | .ok config => .ok (.streamable config)
    else
      .error (.error "invalid client type")

/-! ## V2 (current schema) -/

abbrev ToolFilterMode := String

def ToolFilterModeAllow : ToolFilterMode := "allow"
def ToolFilterModeBlock : ToolFilterMode := "block"

structure ToolFilterConfig where
  Mode : ToolFilterMode
  List : StringSlice
  deriving DecidableEq, Repr

structure OptionsV2 where
  PanicIfInvalid : Option Bool := none
  LogEnabled : Option Bool := none
  AuthTokens : StringSlice := none
  ToolFilter : Option ToolFilterConfig := none
  deriving DecidableEq, Repr

structure MCPProxyConfigV2 where
  BaseURL : String
  Addr : String
  Name : String
  Version : String
  Options : Option OptionsV2
  deriving DecidableEq, Repr

structure MCPClientConfigV2 where
  TransportType : MCPClientType := ""
  Command : String := ""
  Args : StringSlice := none
  Env : StringMap := none
  URL : String := ""
  Headers : StringMap := none
  Timeout : Int := 0
  Options : Option OptionsV2 := none
  deriving DecidableEq, Repr

def parseMCPClientConfigV2 (conf : Option MCPClientConfigV2) : Except Failure ClientInfo :=
  match conf with
  | none => .error .nilDereference
  | some conf =>
    if conf.Command ≠ "" ∨ conf.TransportType = MCPClientTypeStdio then
      if conf.Command = "" then
        .error (.error "command is required for stdio transport")
      else
        .ok (.stdio { Command := conf.Command, Env := conf.Env, Args := conf.Args })
    else if conf.URL ≠ "" then
      if conf.TransportType = MCPClientTypeStreamable then
        .ok (.streamable { URL := conf.URL, Headers := conf.Headers, Timeout := conf.Timeout })
      else
        .ok (.sse { URL := conf.URL, Headers := conf.Headers })
    else
      .error (.error "invalid server type")

/-! ## Config -/

structure Config where
  McpProxy : Option MCPProxyConfigV2
  McpServers : GoMap (Option MCPClientConfigV2)
  deriving DecidableEq, Repr

/-- The local type `FullConfig` of `LoadConfig`: the superset document. -/
structure FullConfig where
  DeprecatedServerV1 : Option MCPProxyConfigV1 := none
  DeprecatedClientsV1 : GoMap (Option MCPClientConfigV1) := none
  McpProxy : Option MCPProxyConfigV2 := none
  McpServers : GoMap (Option MCPClientConfigV2) := none
  deriving DecidableEq, Repr

/-- Lines 176-187 of `LoadConfig`: a legacy `server` record becomes the proxy
record when no current one is present. -/
def migrateProxy (conf : FullConfig) : FullConfig :=
  match conf.DeprecatedServerV1, conf.McpProxy with
  | some v1, none =>
    { conf with
      McpProxy := some
        { BaseURL := v1.BaseURL
          Addr := v1.Addr
          Name := v1.Name
          Version := v1.Version
          Options := some { AuthTokens := v1.GlobalAuthTokens } } }
  | _, _ => conf

/-- Lines 196-201: the options of a migrated backend. -/
def migratedOptions (server : Option MCPProxyConfigV1) (clientConfig : MCPClientConfigV1) :
    OptionsV2 :=
  let options : OptionsV2 := { AuthTokens := clientConfig.AuthTokens }
  match server with
  | some v1 =>
    if sliceLen v1.GlobalAuthTokens > 0 then
      { options with AuthTokens := goAppend options.AuthTokens v1.GlobalAuthTokens }
    else options
  | none => options

/-- Lines 202-225: the current-shape record built from a decoded legacy
payload. -/
def migratedClient (clientInfo : ClientInfo) (options : OptionsV2) : MCPClientConfigV2 :=
  match clientInfo with
  | .stdio v => { Command := v.Command, Args := v.Args, Env := v.Env, Options := some options }
  | .sse v => { URL := v.URL, Headers := v.Headers, Options := some options }
  | .streamable v =>
    { URL := v.URL, Headers := v.Headers, Timeout := v.Timeout, Options := some options }

/-- One iteration of the loop of lines 191-226 on the entry `(name,
clientConfig)`, with `servers` the entries of `conf.McpServers` so far. A
parse error skips the entry; a nil record panics in `parseMCPClientConfigV1`. -/
def migrateClientStep (json : Unmarshal) (server : Option MCPProxyConfigV1)
    (servers : List (String × Option MCPClientConfigV2))
    (entry : String × Option MCPClientConfigV1) :
    Except Failure (List (String × Option MCPClientConfigV2)) :=
  match parseMCPClientConfigV1 json entry.2 with
  | .error .nilDereference => .error .nilDereference
  | .error (.error _) => .ok servers
  | .ok clientInfo =>
    match entry.2 with
    | none => .error .nilDereference
    | some clientConfig =>
      .ok (mapSet servers entry.1
        (some (migratedClient clientInfo (migratedOptions server clientConfig))))

/-- The loop of lines 191-226 over the entries of `conf.DeprecatedClientsV1`. -/
def migrateClientLoop (json : Unmarshal) (server : Option MCPProxyConfigV1)
    (servers : List (String × Option MCPClientConfigV2))
    (clients : List (String × Option MCPClientConfigV1)) :
    Except Failure (List (String × Option MCPClientConfigV2)) :=
  match clients with
  | [] => .ok servers
  | entry :: rest =>
    match migrateClientStep json server servers entry with
    | .error e => .error e
    | .ok servers1 => migrateClientLoop json server servers1 rest

/-- Lines 189-227 of `LoadConfig`: legacy backends are migrated when there is
at least one and the current mapping is empty. -/
def migrateClients (json : Unmarshal) (conf : FullConfig) : Except Failure FullConfig :=
  if mapLen conf.DeprecatedClientsV1 > 0 ∧ mapLen conf.McpServers = 0 then
    match migrateClientLoop json conf.DeprecatedServerV1 [] (conf.DeprecatedClientsV1.getD []) with
    | .error e => .error e
    | .ok servers => .ok { conf with McpServers := some servers }
  else .ok conf

/-- Lines 235-246: what the body of the cascade loop leaves in
`clientConfig.Options`, from the options `o` found there and the proxy options
`proxy`. -/
def cascadeOptions (proxy : OptionsV2) (o : Option OptionsV2) : OptionsV2 :=
  let o0 : OptionsV2 := match o with
    | none => {}
    | some o => o
  let o1 : OptionsV2 :=
    if o0.AuthTokens = none then { o0 with AuthTokens := proxy.AuthTokens } else o0
  let o2 : OptionsV2 :=
    if ¬ o1.PanicIfInvalid.isSome then { o1 with PanicIfInvalid := proxy.PanicIfInvalid } else o1
  let o3 : OptionsV2 :=
    if ¬ o2.LogEnabled.isSome then { o2 with LogEnabled := proxy.LogEnabled } else o2
  o3

/-- Lines 235-246: the body of the cascade loop on one backend record. A nil
record panics on `clientConfig.Options`. -/
def cascadeClient (proxy : OptionsV2) (clientConfig : Option MCPClientConfigV2) :
    Except Failure (Option MCPClientConfigV2) :=
  match clientConfig with
  | none => .error .nilDereference
  | some clientConfig =>
    .ok (some { clientConfig with Options := some (cascadeOptions proxy clientConfig.Options) })

/-- The loop of lines 234-247 over the entries of `conf.McpServers`; the keys
are untouched, the records are updated in place. -/
def cascadeLoop (proxy : OptionsV2) (servers : List (String × Option MCPClientConfigV2)) :
    Except Failure (List (String × Option MCPClientConfigV2)) :=
  match servers with
  | [] => .ok []
  | (name, clientConfig) :: rest =>
    match cascadeClient proxy clientConfig with
    | .error e => .error e
    | .ok c =>
      match cascadeLoop proxy rest with
      | .error e => .error e
      | .ok rest1 => .ok ((name, c) :: rest1)

/-- Lines 231-233: the proxy options after defaulting a nil `Options` to the
empty record. -/
def proxyOptions (proxy : MCPProxyConfigV2) : OptionsV2 :=
  match proxy.Options with
  | none => {}
  | some o => o

/-- Lines 228-256 of `LoadConfig`: the missing-proxy check, the defaulting of
the proxy options, the cascade, and the returned `Config`. -/
def cascade (conf : FullConfig) : Except Failure Config :=
  match conf.McpProxy with
  | none => .error (.error "mcpProxy is required")
  | some proxy =>
    let options : OptionsV2 := proxyOptions proxy
    let proxy1 : MCPProxyConfigV2 := { proxy with Options := some options }
    match conf.McpServers with
    | none => .ok { McpProxy := some proxy1, McpServers := none }
    | some servers =>
      match cascadeLoop options servers with
      | .error e => .error e
      | .ok servers1 => .ok { McpProxy := some proxy1, McpServers := some servers1 }

/-- The function `LoadConfig`. Its argument is the result of
`confstore.Load[FullConfig](path)`: the deserialized document, or the message
of the load error, which is returned as is. -/
def LoadConfig (json : Unmarshal) (loaded : Except String FullConfig) : Except Failure Config :=
  match loaded with
  | .error err => .error (.error err)
  | .ok conf =>
    match migrateClients json (migrateProxy conf) with
    | .error e => .error e
    | .ok conf1 => cascade conf1

/-- A finite table of `json.Unmarshal` results, used to run `LoadConfig` on
concrete documents: the listed payloads decode to what `encoding/json`
produces for them, any other payload is reported as a decoding error. -/
def tableUnmarshal : Unmarshal where
  stdio raw :=
    if raw = "\x7b\"command\":\"run.sh\"\x7d" then
      .ok { Command := "run.sh", Env := none, Args := none }
    else .error "payload outside the table"
  sse raw :=
    if raw = "\x7b\"url\":\"http://b/sse\"\x7d" then
      .ok { URL := "http://b/sse", Headers := none }
    else .error "payload outside the table"
  streamable raw :=
    if raw = "\x7b\"url\":\"http://c/mcp\",\"timeout\":5\x7d" then
      .ok { URL := "http://c/mcp", Headers := none, Timeout := 5 }
    else .error "payload outside the table"

/-! ## Sample records and documents -/

/-- A proxy record without options. -/
def sampleProxy : MCPProxyConfigV2 :=
  { BaseURL := "http://x", Addr := ":8080", Name := "p", Version := "1", Options := none }

/-- A legacy proxy record with one global token. -/
def sampleServerV1 : MCPProxyConfigV1 :=
  { BaseURL := "http://old", Addr := ":9090", Name := "old", Version := "0",
    GlobalAuthTokens := some ["g"] }

/-- A legacy stdio backend with one token of its own. -/
def sampleClientV1 : MCPClientConfigV1 :=
  { Type_ := "stdio", Config := "\x7b\"command\":\"run.sh\"\x7d", PanicIfInvalid := true,
    LogEnabled := true, AuthTokens := some ["b"] }

/-- A current-shape record with a command, a url and the streamable
discriminator all at once. -/
def sampleMixed : MCPClientConfigV2 :=
  { TransportType := "streamable-http", Command := "run.sh", Args := some ["-v"],
    URL := "http://c/mcp", Timeout := 5 }

/-- A current-shape record with the stdio discriminator, a url and no command. -/
def sampleStdioNoCommand : MCPClientConfigV2 :=
  { TransportType := "stdio", URL := "http://b/sse" }

/-- A current-shape record with the streamable discriminator and a url. -/
def sampleStreamable : MCPClientConfigV2 :=
  { TransportType := "streamable-http", URL := "http://c/mcp",
    Headers := some [("k", "v")], Timeout := 5 }

/-- A current-shape record with a url and a discriminator that is none of the
three known names. -/
def sampleSSE : MCPClientConfigV2 :=
  { TransportType := "websocket", URL := "http://b/sse", Headers := some [("k", "v")] }

/-- A current-shape record with no field set. -/
def sampleEmpty : MCPClientConfigV2 := {}

/-- A current-shape document whose only backend has neither command nor url. -/
def docInvalidBackend : FullConfig :=
  { McpProxy := some sampleProxy, McpServers := some [("a", some sampleEmpty)] }

/-- A document with a current proxy record, no current backend, and a legacy
proxy record and backend. -/
def docProxyWithLegacy : FullConfig :=
  { DeprecatedServerV1 := some sampleServerV1
    DeprecatedClientsV1 := some [("old", some sampleClientV1)]
    McpProxy := some sampleProxy }

/-- A document with current proxy and backend records next to legacy ones. -/
def docBothShapes : FullConfig :=
  { DeprecatedServerV1 := some sampleServerV1
    DeprecatedClientsV1 := some [("old", some sampleClientV1)]
    McpProxy := some sampleProxy
    McpServers := some [("a", some sampleStreamable)] }

/-- The proxy options `{authTokens: ["A"], panicIfInvalid: true}`. -/
def sampleProxyOptions : OptionsV2 :=
  { AuthTokens := some ["A"], PanicIfInvalid := some true }

/-- A current-shape document: the proxy has `sampleProxyOptions`; backend `a`
has the options `{}`, backend `b` the options `{authTokens: []}` and an
explicit `logEnabled: false`, backend `c` no options at all but for a tool
filter in `d`. -/
def docInherit : FullConfig :=
  { McpProxy := some { sampleProxy with Options := some sampleProxyOptions }
    McpServers := some
      [("a", some { Command := "run.sh", Options := some {} }),
       ("b", some { URL := "http://b/sse",
                    Options := some { AuthTokens := some [], LogEnabled := some false } }),
       ("c", some { URL := "http://c/mcp", TransportType := "streamable-http" }),
       ("d", some { Command := "run.sh",
                    Options := some { ToolFilter := some { Mode := "allow", List := some ["t"] } } })] }

/-- The Config that `LoadConfig` returns for `docInherit`. -/
def configInherit : Config :=
  { McpProxy := some { sampleProxy with Options := some sampleProxyOptions }
    McpServers := some
      [("a", some { Command := "run.sh",
                    Options := some { AuthTokens := some ["A"], PanicIfInvalid := some true } }),
       ("b", some { URL := "http://b/sse",
                    Options := some { AuthTokens := some [], PanicIfInvalid := some true,
                                      LogEnabled := some false } }),
       ("c", some { URL := "http://c/mcp", TransportType := "streamable-http",
                    Options := some { AuthTokens := some ["A"], PanicIfInvalid := some true } }),
       ("d", some { Command := "run.sh",
                    Options := some { AuthTokens := some ["A"], PanicIfInvalid := some true,
                                      ToolFilter := some { Mode := "allow", List := some ["t"] } } })] }

/-- A current-shape document whose proxy options carry a tool filter: backend
`a` has no options, backend `d` a tool filter of its own. -/
def docFilter : FullConfig :=
  { McpProxy := some
      { sampleProxy with
        Options := some { ToolFilter := some { Mode := "block", List := some ["x"] } } }
    McpServers := some
      [("a", some { Command := "run.sh" }),
       ("d", some { Command := "run.sh",
                    Options := some { ToolFilter := some { Mode := "allow", List := some ["t"] } } })] }

/-- The Config that `LoadConfig` returns for `docFilter`. -/
def configFilter : Config :=
  { McpProxy := some
      { sampleProxy with
        Options := some { ToolFilter := some { Mode := "block", List := some ["x"] } } }
    McpServers := some
      [("a", some { Command := "run.sh", Options := some {} }),
       ("d", some { Command := "run.sh",
                    Options := some { ToolFilter := some { Mode := "allow", List := some ["t"] } } })] }

/-- A legacy streamable backend without tokens of its own. -/
def sampleStreamV1 : MCPClientConfigV1 :=
  { Type_ := "streamable-http", Config := "\x7b\"url\":\"http://c/mcp\",\"timeout\":5\x7d",
    PanicIfInvalid := false, LogEnabled := true, AuthTokens := none }

/-- A legacy-only document with four backends: a stdio one, one of an unknown
type, an sse one whose payload does not decode, and a streamable one. -/
def docLegacy : FullConfig :=
  { DeprecatedServerV1 := some sampleServerV1
    DeprecatedClientsV1 := some
      [("old", some sampleClientV1),
       ("bogus", some { sampleClientV1 with Type_ := "websocket" }),
       ("broken", some { sampleClientV1 with Type_ := "sse", Config := "" }),
       ("stream", some sampleStreamV1)] }

/-- The Config that `LoadConfig` returns for `docLegacy`. -/
def configLegacy : Config :=
  { McpProxy := some
      { BaseURL := "http://old", Addr := ":9090", Name := "old", Version := "0",
        Options := some { AuthTokens := some ["g"] } }
    McpServers := some
      [("old", some { Command := "run.sh", Options := some { AuthTokens := some ["b", "g"] } }),
       ("stream", some { URL := "http://c/mcp", Timeout := 5,
                         Options := some { AuthTokens := some ["g"] } })] }

/-- A legacy-only document whose `clients` has a null entry. -/
def docNullClient : FullConfig :=
  { DeprecatedServerV1 := some sampleServerV1
    DeprecatedClientsV1 := some [("a", none)] }

/-- A current-shape document whose `mcpServers` has a null entry. -/
def docNullServer : FullConfig :=
  { McpProxy := some sampleProxy, McpServers := some [("a", none)] }

/-- A document with neither `server` nor `mcpProxy` and a null entry in
`clients`. -/
def docNoProxyNullClient : FullConfig :=
  { DeprecatedClientsV1 := some [("a", none)] }

/-- A document with neither `server` nor `mcpProxy`, with a legacy backend. -/
def docNoProxy : FullConfig :=
  { DeprecatedClientsV1 := some [("old", some sampleClientV1)] }

/-- A current-shape document without legacy fields. -/
def docCurrent : FullConfig :=
  { McpProxy := some sampleProxy
    McpServers := some [("a", some sampleStreamable), ("m", some sampleMixed)] }

/-! ## Proof helpers -/

/-- The keys of a Go map, in enumeration order. -/
def mapNames {V : Type} (m : GoMap V) : List String :=
  (m.getD []).map Prod.fst

/-- The entry that one iteration of the migration loop stores for the legacy
entry `e`, if it stores one: none for a null record and for a record that
`parseMCPClientConfigV1` rejects. -/
def migratedEntry (json : Unmarshal) (server : Option MCPProxyConfigV1)
    (e : String × Option MCPClientConfigV1) : Option (String × Option MCPClientConfigV2) :=
  match e.2 with
  | none => none
  | some clientConfig =>
    match parseMCPClientConfigV1 json (some clientConfig) with
    | .ok clientInfo =>
      some (e.1, some (migratedClient clientInfo (migratedOptions server clientConfig)))
    | .error _ => none

/-- The document that consists of exactly the `mcpProxy` and `mcpServers` of a
Config, without legacy fields. -/
def documentOf (c : Config) : FullConfig :=
  { McpProxy := c.McpProxy, McpServers := c.McpServers }

/-- The effect of the cascade loop on one entry of `conf.McpServers`. -/
def cascadeEntry (proxy : OptionsV2) (e : String × Option MCPClientConfigV2) :
    String × Option MCPClientConfigV2 :=
  (e.1, e.2.map (fun c => { c with Options := some (cascadeOptions proxy c.Options) }))

/-- Removal of the legacy fields `server` and `clients` from a document. -/
def withoutLegacy (conf : FullConfig) : FullConfig :=
  { conf with DeprecatedServerV1 := none, DeprecatedClientsV1 := none }

/-- The shape of every record the migration loop stores: options are present
and carry no tri-state flag and no tool filter. -/
def MigratedShape (v : Option MCPClientConfigV2) : Prop :=
  ∃ c o, v = some c ∧ c.Options = some o ∧
    o.PanicIfInvalid = none ∧ o.LogEnabled = none ∧ o.ToolFilter = none

/-! ## Lemmas on the cascade -/

theorem cascadeOptions_authTokens (proxy : OptionsV2) (o : Option OptionsV2) :
    (cascadeOptions proxy o).AuthTokens =
      match o.bind OptionsV2.AuthTokens with
      | none => proxy.AuthTokens
      | some t => some t := by
  unfold cascadeOptions
  cases o with
  | none => simp
  | some o =>
    cases h : o.AuthTokens <;> simp [h] <;> split <;> split <;> simp [h]

theorem cascadeOptions_panicIfInvalid (proxy : OptionsV2) (o : Option OptionsV2) :
    (cascadeOptions proxy o).PanicIfInvalid =
      match o.bind OptionsV2.PanicIfInvalid with
      | none => proxy.PanicIfInvalid
      | some v => some v := by
  unfold cascadeOptions
  cases o with
  | none => simp
  | some o =>
    cases h : o.PanicIfInvalid <;> cases h2 : o.AuthTokens <;> simp [h, h2] <;> split <;> simp [h]

theorem cascadeOptions_logEnabled (proxy : OptionsV2) (o : Option OptionsV2) :
    (cascadeOptions proxy o).LogEnabled =
      match o.bind OptionsV2.LogEnabled with
      | none => proxy.LogEnabled
      | some v => some v := by
  unfold cascadeOptions
  cases o with
  | none => simp
  | some o =>
    cases h : o.LogEnabled <;> cases h2 : o.AuthTokens <;> cases h3 : o.PanicIfInvalid <;>
      simp [h, h2, h3]

theorem cascadeOptions_toolFilter (proxy : OptionsV2) (o : Option OptionsV2) :
    (cascadeOptions proxy o).ToolFilter = o.bind OptionsV2.ToolFilter := by
  unfold cascadeOptions
  cases o with
  | none => simp
  | some o => simp; split <;> split <;> split <;> simp

theorem cascadeLoop_eq_ok (proxy : OptionsV2) :
    ∀ (servers out : List (String × Option MCPClientConfigV2)),
      cascadeLoop proxy servers = .ok out →
        (∀ e ∈ servers, e.2 ≠ none) ∧ out = servers.map (cascadeEntry proxy) := by
  intro servers
  induction servers with
  | nil =>
    intro out h
    simp [cascadeLoop] at h
    simp [h]
  | cons e rest ih =>
    intro out h
    obtain ⟨name, cc⟩ := e
    cases cc with
    | none => simp [cascadeLoop, cascadeClient] at h
    | some c =>
      simp only [cascadeLoop, cascadeClient] at h
      cases hr : cascadeLoop proxy rest with
      | error e => simp [hr] at h
      | ok rest1 =>
        simp [hr] at h
        obtain ⟨hnn, hmap⟩ := ih rest1 hr
        refine ⟨?_, ?_⟩
        · intro e he
          rcases List.mem_cons.mp he with rfl | he
          · simp
          · exact hnn e he
        · simp [← h, hmap, cascadeEntry]

theorem cascadeLoop_of_nonnil (proxy : OptionsV2) :
    ∀ (servers : List (String × Option MCPClientConfigV2)),
      (∀ e ∈ servers, e.2 ≠ none) →
        cascadeLoop proxy servers = .ok (servers.map (cascadeEntry proxy)) := by
  intro servers
  induction servers with
  | nil => intro _; simp [cascadeLoop]
  | cons e rest ih =>
    intro h
    obtain ⟨name, cc⟩ := e
    have hrest := ih (fun e he => h e (List.mem_cons_of_mem _ he))
    cases cc with
    | none => exact absurd rfl (h (name, none) (List.mem_cons_self _ _))
    | some c => simp [cascadeLoop, cascadeClient, hrest, cascadeEntry]

theorem cascade_eq_ok (conf : FullConfig) (c : Config) (h : cascade conf = .ok c) :
    ∃ p, conf.McpProxy = some p ∧
      c.McpProxy = some { p with Options := some (proxyOptions p) } ∧
      c.McpServers = conf.McpServers.map (List.map (cascadeEntry (proxyOptions p))) ∧
      ∀ s, conf.McpServers = some s → ∀ e ∈ s, e.2 ≠ none := by
  unfold cascade at h
  cases hp : conf.McpProxy with
  | none => simp [hp] at h
  | some p =>
    refine ⟨p, rfl, ?_⟩
    cases hs : conf.McpServers with
    | none =>
      simp [hp, hs] at h
      simp [← h]
    | some s =>
      simp only [hp, hs] at h
      cases hl : cascadeLoop (proxyOptions p) s with
      | error e => simp [hl] at h
      | ok out =>
        simp [hl] at h
        obtain ⟨hnn, hout⟩ := cascadeLoop_eq_ok _ _ _ hl
        refine ⟨by simp [← h], by simp [← h, hout], ?_⟩
        intro s1 hs1
        cases hs1
        exact hnn

theorem cascade_of_nonnil (conf : FullConfig) (p : MCPProxyConfigV2)
    (hp : conf.McpProxy = some p)
    (h : ∀ s, conf.McpServers = some s → ∀ e ∈ s, e.2 ≠ none) :
    cascade conf = .ok
      { McpProxy := some { p with Options := some (proxyOptions p) }
        McpServers := conf.McpServers.map (List.map (cascadeEntry (proxyOptions p))) } := by
  unfold cascade
  cases hs : conf.McpServers with
  | none => simp [hp]
  | some s => simp [hp, cascadeLoop_of_nonnil _ s (h s hs)]

/-! ## Lemmas on the migration -/

theorem migrateProxy_McpServers (conf : FullConfig) :
    (migrateProxy conf).McpServers = conf.McpServers := by
  unfold migrateProxy
  split <;> rfl

theorem migrateProxy_clients (conf : FullConfig) :
    (migrateProxy conf).DeprecatedClientsV1 = conf.DeprecatedClientsV1 := by
  unfold migrateProxy
  split <;> rfl

theorem migrateProxy_server (conf : FullConfig) :
    (migrateProxy conf).DeprecatedServerV1 = conf.DeprecatedServerV1 := by
  unfold migrateProxy
  split <;> rfl

theorem migrateProxy_of_proxy (conf : FullConfig) (p : MCPProxyConfigV2)
    (hp : conf.McpProxy = some p) : migrateProxy conf = conf := by
  unfold migrateProxy
  split
  · rename_i h1 h2
    rw [hp] at h2
    cases h2
  · rfl

theorem migrateClients_of_servers (json : Unmarshal) (conf : FullConfig)
    (h : mapLen conf.McpServers > 0) : migrateClients json conf = .ok conf := by
  unfold migrateClients
  rw [if_neg]
  omega

theorem migrateClients_McpProxy (json : Unmarshal) (conf conf1 : FullConfig)
    (h : migrateClients json conf = .ok conf1) : conf1.McpProxy = conf.McpProxy := by
  unfold migrateClients at h
  split at h
  · split at h
    · cases h
    · cases h
      rfl
  · cases h
    rfl

theorem LoadConfig_of_servers (json : Unmarshal) (conf : FullConfig)
    (h : mapLen conf.McpServers > 0) :
    LoadConfig json (.ok conf) = cascade (migrateProxy conf) := by
  have h1 : mapLen (migrateProxy conf).McpServers > 0 := by
    rw [migrateProxy_McpServers]
    exact h
  simp [LoadConfig, migrateClients_of_servers json _ h1]

theorem LoadConfig_eq_ok (json : Unmarshal) (conf : FullConfig) (c : Config)
    (h : LoadConfig json (.ok conf) = .ok c) :
    ∃ conf1, migrateClients json (migrateProxy conf) = .ok conf1 ∧ cascade conf1 = .ok c := by
  simp only [LoadConfig] at h
  cases hm : migrateClients json (migrateProxy conf) with
  | error e => simp [hm] at h
  | ok conf1 =>
    simp only [hm] at h
    exact ⟨conf1, rfl, h⟩

theorem migrateClients_of_no_clients (json : Unmarshal) (conf : FullConfig)
    (h : mapLen conf.DeprecatedClientsV1 = 0) : migrateClients json conf = .ok conf := by
  unfold migrateClients
  rw [if_neg]
  omega

theorem cascade_withoutLegacy (conf : FullConfig) :
    cascade (withoutLegacy conf) = cascade conf := rfl

theorem LoadConfig_withoutLegacy (json : Unmarshal) (conf : FullConfig) (p : MCPProxyConfigV2)
    (hp : conf.McpProxy = some p) :
    LoadConfig json (.ok (withoutLegacy conf)) = cascade conf := by
  have h1 : (withoutLegacy conf).McpProxy = some p := hp
  have h2 : mapLen (withoutLegacy conf).DeprecatedClientsV1 = 0 := rfl
  simp only [LoadConfig, migrateProxy_of_proxy _ p h1, migrateClients_of_no_clients json _ h2]
  rfl

theorem parseMCPClientConfigV2_options (conf : MCPClientConfigV2) (o : Option OptionsV2) :
    parseMCPClientConfigV2 (some { conf with Options := o }) =
      parseMCPClientConfigV2 (some conf) := rfl

theorem mapLen_pos_of_getElem {V : Type} (m : GoMap V) (ms : List (String × V))
    (hm : m = some ms) (i : Nat) (e : String × V) (hi : ms[i]? = some e) : mapLen m > 0 := by
  subst hm
  cases ms with
  | nil => simp at hi
  | cons a l => simp [mapLen]

theorem mapLen_zero_nonnil {V : Type} (m : GoMap (Option V)) (h : mapLen m = 0) :
    ∀ s, m = some s → ∀ e ∈ s, e.2 ≠ none := by
  intro s hs e he
  subst hs
  cases s with
  | nil => simp at he
  | cons a l => simp [mapLen] at h

theorem mapSet_mem {V : Type} (k : String) (v : V) :
    ∀ (m : List (String × V)) (e : String × V), e ∈ mapSet m k v → e ∈ m ∨ e = (k, v) := by
  intro m
  induction m with
  | nil =>
    intro e he
    simp [mapSet] at he
    exact Or.inr he
  | cons a rest ih =>
    intro e he
    obtain ⟨k0, v0⟩ := a
    simp only [mapSet] at he
    split at he
    · rcases List.mem_cons.mp he with h | h
      · exact Or.inr h
      · exact Or.inl (List.mem_cons_of_mem _ h)
    · rcases List.mem_cons.mp he with h | h
      · exact Or.inl (h ▸ List.mem_cons_self _ _)
      · rcases ih e h with h1 | h1
        · exact Or.inl (List.mem_cons_of_mem _ h1)
        · exact Or.inr h1

theorem migratedOptions_shape (server : Option MCPProxyConfigV1)
    (clientConfig : MCPClientConfigV1) :
    (migratedOptions server clientConfig).PanicIfInvalid = none ∧
      (migratedOptions server clientConfig).LogEnabled = none ∧
      (migratedOptions server clientConfig).ToolFilter = none := by
  unfold migratedOptions
  cases server with
  | none => simp
  | some v1 => simp only []; split <;> simp

theorem migratedClient_shape (clientInfo : ClientInfo) (options : OptionsV2)
    (h : options.PanicIfInvalid = none ∧ options.LogEnabled = none ∧ options.ToolFilter = none) :
    MigratedShape (some (migratedClient clientInfo options)) := by
  refine ⟨_, options, rfl, ?_, h⟩
  cases clientInfo <;> rfl

theorem migrateClientStep_shape (json : Unmarshal) (server : Option MCPProxyConfigV1)
    (servers out : List (String × Option MCPClientConfigV2))
    (entry : String × Option MCPClientConfigV1)
    (hs : ∀ e ∈ servers, MigratedShape e.2)
    (h : migrateClientStep json server servers entry = .ok out) :
    ∀ e ∈ out, MigratedShape e.2 := by
  unfold migrateClientStep at h
  split at h
  · cases h
  · cases h
    exact hs
  · split at h
    · cases h
    · cases h
      intro e he
      rcases mapSet_mem _ _ _ _ he with h1 | h1
      · exact hs e h1
      · rw [h1]
        exact migratedClient_shape _ _ (migratedOptions_shape _ _)

theorem migrateClientLoop_shape (json : Unmarshal) (server : Option MCPProxyConfigV1) :
    ∀ (clients : List (String × Option MCPClientConfigV1))
      (servers out : List (String × Option MCPClientConfigV2)),
      (∀ e ∈ servers, MigratedShape e.2) →
      migrateClientLoop json server servers clients = .ok out →
      ∀ e ∈ out, MigratedShape e.2 := by
  intro clients
  induction clients with
  | nil =>
    intro servers out hs h
    simp [migrateClientLoop] at h
    rw [← h]
    exact hs
  | cons entry rest ih =>
    intro servers out hs h
    simp only [migrateClientLoop] at h
    cases hstep : migrateClientStep json server servers entry with
    | error e => simp [hstep] at h
    | ok servers1 =>
      simp only [hstep] at h
      exact ih servers1 out (migrateClientStep_shape json server servers servers1 entry hs hstep) h

theorem migrateClients_shape (json : Unmarshal) (conf conf1 : FullConfig)
    (h : migrateClients json conf = .ok conf1) (hlen : mapLen conf.McpServers = 0) :
    ∀ out, conf1.McpServers = some out → ∀ e ∈ out, MigratedShape e.2 := by
  unfold migrateClients at h
  split at h
  · cases hl : migrateClientLoop json conf.DeprecatedServerV1 [] (conf.DeprecatedClientsV1.getD []) with
    | error e => simp [hl] at h
    | ok servers =>
      simp [hl] at h
      intro out hout
      rw [← h] at hout
      simp at hout
      rw [← hout]
      exact migrateClientLoop_shape json _ _ [] servers (by simp) hl
  · cases h
    intro out hout e he
    cases out with
    | nil => simp at he
    | cons a l => simp [hout, mapLen] at hlen

theorem migrateProxy_McpProxy (d : FullConfig) (p : MCPProxyConfigV2)
    (h : (migrateProxy d).McpProxy = some p) :
    (∀ p0, d.McpProxy = some p0 → p = p0) ∧
    (d.McpProxy = none →
      (proxyOptions p).PanicIfInvalid = none ∧ (proxyOptions p).LogEnabled = none ∧
        (proxyOptions p).ToolFilter = none) := by
  unfold migrateProxy at h
  split at h
  · rename_i v1 h1 h2
    simp at h
    subst h
    refine ⟨fun p0 hp0 => ?_, fun _ => ⟨rfl, rfl, rfl⟩⟩
    rw [h2] at hp0
    cases hp0
  · refine ⟨fun p0 hp0 => ?_, fun hn => ?_⟩
    · rw [hp0] at h
      cases h
      rfl
    · rw [hn] at h
      cases h

theorem LoadConfig_structure (json : Unmarshal) (d : FullConfig) (c : Config)
    (h : LoadConfig json (.ok d) = .ok c) :
    ∃ (p : MCPProxyConfigV2) (conf1 : FullConfig), (migrateProxy d).McpProxy = some p ∧
      c.McpProxy = some { p with Options := some (proxyOptions p) } ∧
      c.McpServers = conf1.McpServers.map (List.map (cascadeEntry (proxyOptions p))) ∧
      (mapLen d.McpServers > 0 → conf1.McpServers = d.McpServers) ∧
      (mapLen d.McpServers = 0 →
        ∀ out, conf1.McpServers = some out → ∀ e ∈ out, MigratedShape e.2) ∧
      (∀ s, conf1.McpServers = some s → ∀ e ∈ s, e.2 ≠ none) := by
  obtain ⟨conf1, hm, hcas⟩ := LoadConfig_eq_ok json d c h
  obtain ⟨p, hp, hcp, hcs, hnn⟩ := cascade_eq_ok conf1 c hcas
  rw [migrateClients_McpProxy json _ conf1 hm] at hp
  refine ⟨p, conf1, hp, hcp, hcs, ?_, ?_, hnn⟩
  · intro hlen
    have h1 : mapLen (migrateProxy d).McpServers > 0 := by
      rw [migrateProxy_McpServers]
      exact hlen
    rw [migrateClients_of_servers json _ h1] at hm
    cases hm
    exact migrateProxy_McpServers d
  · intro hlen
    have h1 : mapLen (migrateProxy d).McpServers = 0 := by
      rw [migrateProxy_McpServers]
      exact hlen
    exact migrateClients_shape json _ conf1 hm h1

theorem LoadConfig_current_entry (json : Unmarshal) (d : FullConfig) (c : Config)
    (h : LoadConfig json (.ok d) = .ok c)
    (ms : List (String × Option MCPClientConfigV2)) (hms : d.McpServers = some ms)
    (i : Nat) (n : String) (b : MCPClientConfigV2) (hi : ms[i]? = some (n, some b)) :
    ∃ p out, (migrateProxy d).McpProxy = some p ∧
      c.McpProxy = some { p with Options := some (proxyOptions p) } ∧
      c.McpServers = some out ∧
      out[i]? = some (n, some { b with Options := some (cascadeOptions (proxyOptions p) b.Options) }) := by
  obtain ⟨p, conf1, hp, hcp, hcs, hcur, -, -⟩ := LoadConfig_structure json d c h
  have hlen : mapLen d.McpServers > 0 := mapLen_pos_of_getElem _ ms hms i _ hi
  rw [hcur hlen, hms] at hcs
  refine ⟨p, _, hp, hcp, hcs, ?_⟩
  simp [List.getElem?_map, hi, cascadeEntry]

theorem LoadConfig_result_entry (json : Unmarshal) (d : FullConfig) (c : Config)
    (h : LoadConfig json (.ok d) = .ok c)
    (out : List (String × Option MCPClientConfigV2)) (hout : c.McpServers = some out)
    (i : Nat) (n : String) (r : Option MCPClientConfigV2) (hi : out[i]? = some (n, r)) :
    ∃ p, (migrateProxy d).McpProxy = some p ∧
      c.McpProxy = some { p with Options := some (proxyOptions p) } ∧
      (mapLen d.McpServers > 0 →
        ∃ (ms : List (String × Option MCPClientConfigV2)) (b : MCPClientConfigV2),
          d.McpServers = some ms ∧ ms[i]? = some (n, some b) ∧
          r = some { b with Options := some (cascadeOptions (proxyOptions p) b.Options) }) ∧
      (mapLen d.McpServers = 0 →
        ∃ b : MCPClientConfigV2, MigratedShape (some b) ∧
          r = some { b with Options := some (cascadeOptions (proxyOptions p) b.Options) }) := by
  obtain ⟨p, conf1, hp, hcp, hcs, hcur, hmig, hnn⟩ := LoadConfig_structure json d c h
  rw [hout] at hcs
  cases hd : conf1.McpServers with
  | none => simp [hd] at hcs
  | some ms =>
    simp [hd] at hcs
    rw [hcs, List.getElem?_map] at hi
    cases hmi : ms[i]? with
    | none => simp [hmi] at hi
    | some e =>
      obtain ⟨k, v⟩ := e
      have hmem : (k, v) ∈ ms := List.getElem?_mem hmi
      cases v with
      | none => exact absurd rfl (hnn ms hd _ hmem)
      | some b =>
        simp [hmi, cascadeEntry] at hi
        obtain ⟨hk, hr⟩ := hi
        subst hk
        refine ⟨p, hp, hcp, ?_, ?_⟩
        · intro hlen
          rw [hcur hlen] at hd
          exact ⟨ms, b, hd, hmi, hr.symm⟩
        · intro hlen
          exact ⟨b, hmig hlen ms hd _ hmem, hr.symm⟩

/-! ## Transport resolution of a current-shape record -/

/-- C3: a current-schema record with a non-empty command resolves to the
stdio variant carrying exactly the record's command, args and env, whatever
its transportType, url, headers and timeout. -/
theorem C3_command_resolves_to_stdio (conf : MCPClientConfigV2) (hc : conf.Command ≠ "") :
    parseMCPClientConfigV2 (some conf) =
      .ok (.stdio { Command := conf.Command, Env := conf.Env, Args := conf.Args }) := by
  simp [parseMCPClientConfigV2, hc]

theorem C3_command_resolves_to_stdio_witness :
    sampleMixed.Command ≠ "" ∧
      parseMCPClientConfigV2 (some sampleMixed) =
        .ok (.stdio { Command := "run.sh", Env := none, Args := some ["-v"] }) :=
  ⟨by decide, C3_command_resolves_to_stdio sampleMixed (by decide)⟩

/-- C4: a current-schema record with transportType "stdio" and an empty
command is rejected with the error "command is required for stdio transport",
whether or not it has a url. -/
theorem C4_stdio_requires_command (conf : MCPClientConfigV2)
    (ht : conf.TransportType = MCPClientTypeStdio) (hc : conf.Command = "") :
    parseMCPClientConfigV2 (some conf) =
      .error (.error "command is required for stdio transport") := by
  simp [parseMCPClientConfigV2, ht, hc]

theorem C4_stdio_requires_command_witness :
    sampleStdioNoCommand.TransportType = MCPClientTypeStdio ∧
      sampleStdioNoCommand.Command = "" ∧ sampleStdioNoCommand.URL ≠ "" ∧
      parseMCPClientConfigV2 (some sampleStdioNoCommand) =
        .error (.error "command is required for stdio transport") :=
  ⟨by decide, by decide, by decide, C4_stdio_requires_command sampleStdioNoCommand rfl rfl⟩

/-- C5, as stated, fails: a record with a non-empty url, transportType
"streamable-http" and a non-empty command resolves to the stdio variant. -/
theorem C5_counterexample :
    sampleMixed.URL ≠ "" ∧ sampleMixed.TransportType = MCPClientTypeStreamable ∧
      parseMCPClientConfigV2 (some sampleMixed) =
        .ok (.stdio { Command := "run.sh", Env := none, Args := some ["-v"] }) ∧
      parseMCPClientConfigV2 (some sampleMixed) ≠
        .ok (.streamable
          { URL := sampleMixed.URL, Headers := sampleMixed.Headers,
            Timeout := sampleMixed.Timeout }) := by
  decide

/-- C5, amended: a current-schema record with an empty command, a non-empty
url and transportType "streamable-http" resolves to the streamable variant
carrying the record's url, headers and timeout. -/
theorem C5_streamable_when_no_command (conf : MCPClientConfigV2)
    (hc : conf.Command = "") (hu : conf.URL ≠ "")
    (ht : conf.TransportType = MCPClientTypeStreamable) :
    parseMCPClientConfigV2 (some conf) =
      .ok (.streamable { URL := conf.URL, Headers := conf.Headers, Timeout := conf.Timeout }) := by
  have hne : MCPClientTypeStreamable ≠ MCPClientTypeStdio := by decide
  simp [parseMCPClientConfigV2, hc, hu, ht, hne]

theorem C5_streamable_when_no_command_witness :
    sampleStreamable.Command = "" ∧ sampleStreamable.URL ≠ "" ∧
      sampleStreamable.TransportType = MCPClientTypeStreamable ∧
      parseMCPClientConfigV2 (some sampleStreamable) =
        .ok (.streamable
          { URL := "http://c/mcp", Headers := some [("k", "v")], Timeout := 5 }) :=
  ⟨by decide, by decide, by decide,
    C5_streamable_when_no_command sampleStreamable rfl (by decide) rfl⟩

/-- C6, as stated, fails twice: a record with a non-empty url and a
transportType other than "streamable-http" resolves to the stdio variant when
it has a command, and is rejected when its transportType is "stdio" and it has
no command. -/
theorem C6_counterexample :
    (sampleStdioNoCommand.URL ≠ "" ∧
      sampleStdioNoCommand.TransportType ≠ MCPClientTypeStreamable ∧
      parseMCPClientConfigV2 (some sampleStdioNoCommand) =
        .error (.error "command is required for stdio transport")) ∧
    ((({ sampleSSE with Command := "run.sh" } : MCPClientConfigV2)).URL ≠ "" ∧
      (({ sampleSSE with Command := "run.sh" } : MCPClientConfigV2)).TransportType ≠
        MCPClientTypeStreamable ∧
      parseMCPClientConfigV2 (some { sampleSSE with Command := "run.sh" }) =
        .ok (.stdio { Command := "run.sh", Env := none, Args := none })) := by
  decide

/-- C6, amended: a current-schema record with an empty command, a non-empty
url and a transportType that is neither "stdio" nor "streamable-http" (absent,
"sse", or any other value) resolves to the SSE variant carrying the record's
url and headers. -/
theorem C6_sse_by_default (conf : MCPClientConfigV2)
    (hc : conf.Command = "") (hu : conf.URL ≠ "")
    (hs : conf.TransportType ≠ MCPClientTypeStdio)
    (ht : conf.TransportType ≠ MCPClientTypeStreamable) :
    parseMCPClientConfigV2 (some conf) =
      .ok (.sse { URL := conf.URL, Headers := conf.Headers }) := by
  simp [parseMCPClientConfigV2, hc, hu, hs, ht]

theorem C6_sse_by_default_witness :
    (sampleSSE.Command = "" ∧ sampleSSE.URL ≠ "" ∧
      sampleSSE.TransportType ≠ MCPClientTypeStdio ∧
      sampleSSE.TransportType ≠ MCPClientTypeStreamable) ∧
      parseMCPClientConfigV2 (some sampleSSE) =
        .ok (.sse { URL := "http://b/sse", Headers := some [("k", "v")] }) :=
  ⟨by decide, C6_sse_by_default sampleSSE rfl (by decide) (by decide) (by decide)⟩

/-- C7, as stated, fails: a record with an empty command, an empty url and
transportType "stdio" is rejected with "command is required for stdio
transport", not with "invalid server type". -/
theorem C7_counterexample :
    (({ TransportType := "stdio" } : MCPClientConfigV2)).Command = "" ∧
      (({ TransportType := "stdio" } : MCPClientConfigV2)).URL = "" ∧
      parseMCPClientConfigV2 (some { TransportType := "stdio" }) =
        .error (.error "command is required for stdio transport") ∧
      parseMCPClientConfigV2 (some { TransportType := "stdio" }) ≠
        .error (.error "invalid server type") := by
  decide

/-- C7, amended: a current-schema record with an empty command, an empty url
and a transportType other than "stdio" is rejected with the error "invalid
server type". -/
theorem C7_invalid_server_type (conf : MCPClientConfigV2)
    (hc : conf.Command = "") (hu : conf.URL = "")
    (hs : conf.TransportType ≠ MCPClientTypeStdio) :
    parseMCPClientConfigV2 (some conf) = .error (.error "invalid server type") := by
  simp [parseMCPClientConfigV2, hc, hu, hs]

theorem C7_invalid_server_type_witness :
    (sampleEmpty.Command = "" ∧ sampleEmpty.URL = "" ∧
      sampleEmpty.TransportType ≠ MCPClientTypeStdio) ∧
      parseMCPClientConfigV2 (some sampleEmpty) = .error (.error "invalid server type") :=
  ⟨by decide, C7_invalid_server_type sampleEmpty rfl rfl (by decide)⟩

/-! ## Loading: validation and precedence of the current schema -/

/-- C1, as stated, fails: `LoadConfig` returns a Config, and no error, for a
document with a current-shape proxy and a backend that
`parseMCPClientConfigV2` rejects. -/
theorem C1_counterexample :
    docInvalidBackend.McpProxy = some sampleProxy ∧
      docInvalidBackend.McpServers = some [("a", some sampleEmpty)] ∧
      parseMCPClientConfigV2 (some sampleEmpty) = .error (.error "invalid server type") ∧
      LoadConfig tableUnmarshal (.ok docInvalidBackend) =
        .ok { McpProxy := some { sampleProxy with Options := some {} }
              McpServers := some [("a", some { Options := some {} })] } := by
  decide

/-- C1, amended: `LoadConfig` does not resolve transports. For a document with
a current-shape proxy whose mcpServers entries are all non-null records,
`LoadConfig` returns a Config even when `parseMCPClientConfigV2` rejects an
entry; the rejected entry is kept under its name with its transport fields
unchanged, so `parseMCPClientConfigV2` rejects the returned record with the
same error. -/
theorem C1_loadconfig_keeps_rejected_backend (json : Unmarshal) (d : FullConfig)
    (p : MCPProxyConfigV2) (ms : List (String × Option MCPClientConfigV2))
    (hp : d.McpProxy = some p) (hms : d.McpServers = some ms)
    (hnn : ∀ e ∈ ms, e.2 ≠ none)
    (i : Nat) (n : String) (b : MCPClientConfigV2) (err : Failure)
    (hi : ms[i]? = some (n, some b))
    (hrej : parseMCPClientConfigV2 (some b) = .error err) :
    ∃ c out b1, LoadConfig json (.ok d) = .ok c ∧ c.McpServers = some out ∧
      out[i]? = some (n, some b1) ∧
      b1.TransportType = b.TransportType ∧ b1.Command = b.Command ∧ b1.Args = b.Args ∧
      b1.Env = b.Env ∧ b1.URL = b.URL ∧ b1.Headers = b.Headers ∧ b1.Timeout = b.Timeout ∧
      parseMCPClientConfigV2 (some b1) = .error err := by
  have hlen : mapLen d.McpServers > 0 := mapLen_pos_of_getElem _ ms hms i _ hi
  have hnn1 : ∀ s, d.McpServers = some s → ∀ e ∈ s, e.2 ≠ none := by
    intro s hs
    rw [hms] at hs
    cases hs
    exact hnn
  have hload := LoadConfig_of_servers json d hlen
  rw [migrateProxy_of_proxy d p hp, cascade_of_nonnil d p hp hnn1] at hload
  refine ⟨_, ms.map (cascadeEntry (proxyOptions p)),
    { b with Options := some (cascadeOptions (proxyOptions p) b.Options) }, hload, ?_, ?_,
    rfl, rfl, rfl, rfl, rfl, rfl, rfl, ?_⟩
  · simp [hms]
  · simp [List.getElem?_map, hi, cascadeEntry]
  · rw [parseMCPClientConfigV2_options]
    exact hrej

theorem C1_loadconfig_keeps_rejected_backend_witness :
    ∃ c out b1, LoadConfig tableUnmarshal (.ok docInvalidBackend) = .ok c ∧
      c.McpServers = some out ∧ out[0]? = some ("a", some b1) ∧
      b1.TransportType = sampleEmpty.TransportType ∧ b1.Command = sampleEmpty.Command ∧
      b1.Args = sampleEmpty.Args ∧ b1.Env = sampleEmpty.Env ∧ b1.URL = sampleEmpty.URL ∧
      b1.Headers = sampleEmpty.Headers ∧ b1.Timeout = sampleEmpty.Timeout ∧
      parseMCPClientConfigV2 (some b1) = .error (.error "invalid server type") :=
  C1_loadconfig_keeps_rejected_backend tableUnmarshal docInvalidBackend sampleProxy
    [("a", some sampleEmpty)] rfl rfl (by decide) 0 "a" sampleEmpty
    (.error "invalid server type") rfl (by decide)

/-! ## The options cascade -/

/-- C8: when `LoadConfig` returns a Config, every current-shape backend of the
document is in it under its name with options present; its authTokens equal
the resolved proxy authTokens when the backend had no options or nil
authTokens, and equal the backend's own authTokens when those were present,
the empty sequence included. -/
theorem C8_authTokens_cascade (json : Unmarshal) (d : FullConfig) (c : Config)
    (h : LoadConfig json (.ok d) = .ok c)
    (ms : List (String × Option MCPClientConfigV2)) (hms : d.McpServers = some ms)
    (i : Nat) (n : String) (b : MCPClientConfigV2) (hi : ms[i]? = some (n, some b)) :
    ∃ p1 po out b1 o1, c.McpProxy = some p1 ∧ p1.Options = some po ∧
      c.McpServers = some out ∧ out[i]? = some (n, some b1) ∧ b1.Options = some o1 ∧
      (b.Options = none → o1.AuthTokens = po.AuthTokens) ∧
      (∀ o, b.Options = some o → o.AuthTokens = none → o1.AuthTokens = po.AuthTokens) ∧
      (∀ o t, b.Options = some o → o.AuthTokens = some t → o1.AuthTokens = some t) := by
  obtain ⟨p, out, -, hcp, hcs, hout⟩ := LoadConfig_current_entry json d c h ms hms i n b hi
  refine ⟨_, proxyOptions p, out, _, cascadeOptions (proxyOptions p) b.Options,
    hcp, rfl, hcs, hout, rfl, ?_, ?_, ?_⟩
  · intro hb
    rw [cascadeOptions_authTokens, hb]
    rfl
  · intro o hb ho
    rw [cascadeOptions_authTokens, hb]
    simp [ho]
  · intro o t hb ho
    rw [cascadeOptions_authTokens, hb]
    simp [ho]

theorem C8_authTokens_cascade_witness :
    LoadConfig tableUnmarshal (.ok docInherit) = .ok configInherit ∧
      ∃ (out : List (String × Option MCPClientConfigV2)) (b1 : MCPClientConfigV2)
        (o1 : OptionsV2), configInherit.McpServers = some out ∧
        out[1]? = some ("b", some b1) ∧ b1.Options = some o1 ∧ o1.AuthTokens = some [] := by
  refine ⟨by decide, ?_⟩
  obtain ⟨_, _, out, b1, o1, -, -, hout, hi, ho, -, -, hown⟩ :=
    C8_authTokens_cascade tableUnmarshal docInherit configInherit (by decide) _ rfl 1 "b"
      { URL := "http://b/sse",
        Options := some { AuthTokens := some [], LogEnabled := some false } } rfl
  exact ⟨out, b1, o1, hout, hi, ho, hown _ _ rfl rfl⟩

/-- C9: when `LoadConfig` returns a Config, the resolved proxy options carry
the tri-state panicIfInvalid and logEnabled of the input mcpProxy (unset when
it has no options, and unset when the proxy record comes from the legacy
`server`), and every backend of the result has options in which each of the
two fields, independently, is the proxy's value when the backend's own value
was unset and the backend's own value when it was set; a backend migrated from
`clients` has both fields unset before the cascade, so it takes the proxy's
values. In particular proxy options `{authTokens: ["A"], panicIfInvalid: true}`
and backend options `{}` resolve to `{authTokens: ["A"], panicIfInvalid: true,
logEnabled: unset, toolFilter: none}`. -/
theorem C9_tristate_cascade (json : Unmarshal) (d : FullConfig) (c : Config)
    (h : LoadConfig json (.ok d) = .ok c) :
    (∃ p1 po, c.McpProxy = some p1 ∧ p1.Options = some po ∧
      (∀ p, d.McpProxy = some p →
        po.PanicIfInvalid = p.Options.bind OptionsV2.PanicIfInvalid ∧
        po.LogEnabled = p.Options.bind OptionsV2.LogEnabled) ∧
      (d.McpProxy = none → po.PanicIfInvalid = none ∧ po.LogEnabled = none) ∧
      ∀ (out : List (String × Option MCPClientConfigV2)) (i : Nat) (n : String)
        (r : Option MCPClientConfigV2), c.McpServers = some out → out[i]? = some (n, r) →
        ∃ (b1 : MCPClientConfigV2) (o1 : OptionsV2), r = some b1 ∧ b1.Options = some o1 ∧
          (mapLen d.McpServers > 0 →
            ∃ (ms : List (String × Option MCPClientConfigV2)) (b : MCPClientConfigV2),
              d.McpServers = some ms ∧ ms[i]? = some (n, some b) ∧
              (b.Options.bind OptionsV2.PanicIfInvalid = none →
                o1.PanicIfInvalid = po.PanicIfInvalid) ∧
              (∀ v, b.Options.bind OptionsV2.PanicIfInvalid = some v →
                o1.PanicIfInvalid = some v) ∧
              (b.Options.bind OptionsV2.LogEnabled = none → o1.LogEnabled = po.LogEnabled) ∧
              (∀ v, b.Options.bind OptionsV2.LogEnabled = some v → o1.LogEnabled = some v)) ∧
          (mapLen d.McpServers = 0 →
            o1.PanicIfInvalid = po.PanicIfInvalid ∧ o1.LogEnabled = po.LogEnabled)) ∧
    (∀ (p : MCPProxyConfigV2) (ms : List (String × Option MCPClientConfigV2)) (i : Nat)
      (n : String) (b : MCPClientConfigV2), d.McpProxy = some p →
      p.Options = some { AuthTokens := some ["A"], PanicIfInvalid := some true } →
      d.McpServers = some ms → ms[i]? = some (n, some b) → b.Options = some {} →
      ∃ (out : List (String × Option MCPClientConfigV2)) (b1 : MCPClientConfigV2),
        c.McpServers = some out ∧ out[i]? = some (n, some b1) ∧
        b1.Options = some
          { AuthTokens := some ["A"], PanicIfInvalid := some true, LogEnabled := none,
            ToolFilter := none }) := by
  obtain ⟨p, conf1, hp, hcp, -, -, -, -⟩ := LoadConfig_structure json d c h
  obtain ⟨hcur, hleg⟩ := migrateProxy_McpProxy d p hp
  refine ⟨⟨_, proxyOptions p, hcp, rfl, ?_, ?_, ?_⟩, ?_⟩
  · intro p0 hp0
    rw [hcur p0 hp0]
    cases hopt : p0.Options <;> simp [proxyOptions, hopt]
  · intro hn
    exact ⟨(hleg hn).1, (hleg hn).2.1⟩
  · intro out i n r hout hi
    obtain ⟨q, hq, -, hc1, hc0⟩ := LoadConfig_result_entry json d c h out hout i n r hi
    rw [hp] at hq
    cases hq
    by_cases hlen : mapLen d.McpServers > 0
    · obtain ⟨ms, b, hms, hmi, hr⟩ := hc1 hlen
      refine ⟨_, cascadeOptions (proxyOptions p) b.Options, hr, rfl, ?_, ?_⟩
      · intro _
        refine ⟨ms, b, hms, hmi, ?_, ?_, ?_, ?_⟩
        · intro hb
          rw [cascadeOptions_panicIfInvalid, hb]
        · intro v hb
          rw [cascadeOptions_panicIfInvalid, hb]
        · intro hb
          rw [cascadeOptions_logEnabled, hb]
        · intro v hb
          rw [cascadeOptions_logEnabled, hb]
      · intro h0
        omega
    · have h0 : mapLen d.McpServers = 0 := by omega
      obtain ⟨b, ⟨b2, o, hb2, hbo, hpan, hlog, -⟩, hr⟩ := hc0 h0
      cases hb2
      refine ⟨_, cascadeOptions (proxyOptions p) b.Options, hr, rfl, ?_, ?_⟩
      · intro hpos
        omega
      · intro _
        rw [cascadeOptions_panicIfInvalid, cascadeOptions_logEnabled, hbo]
        simp [hpan, hlog]
  · intro p0 ms i n b hp0 hopt hms hi hb
    obtain ⟨q, out, hq, -, hcs, hout⟩ := LoadConfig_current_entry json d c h ms hms i n b hi
    rw [hp] at hq
    cases hq
    refine ⟨out, _, hcs, hout, ?_⟩
    rw [hcur p0 hp0, hb]
    simp [proxyOptions, hopt, cascadeOptions]

theorem C9_tristate_cascade_witness :
    LoadConfig tableUnmarshal (.ok docInherit) = .ok configInherit ∧
      ∃ (out : List (String × Option MCPClientConfigV2)) (b1 : MCPClientConfigV2),
        configInherit.McpServers = some out ∧ out[0]? = some ("a", some b1) ∧
        b1.Options = some
          { AuthTokens := some ["A"], PanicIfInvalid := some true, LogEnabled := none,
            ToolFilter := none } :=
  ⟨by decide,
    (C9_tristate_cascade tableUnmarshal docInherit configInherit (by decide)).2
      _ _ 0 "a" { Command := "run.sh", Options := some {} } rfl rfl rfl rfl rfl⟩

/-- C10: when `LoadConfig` returns a Config, the resolved proxy options carry
the toolFilter of the input mcpProxy (none when it has no options, and none
when the proxy record comes from the legacy `server`), and every backend of
the result carries the toolFilter its own input record carried (none when it
had no options), whatever the proxy's toolFilter; a backend migrated from
`clients` carries none. -/
theorem C10_toolFilter_not_cascaded (json : Unmarshal) (d : FullConfig) (c : Config)
    (h : LoadConfig json (.ok d) = .ok c) :
    ∃ p1 po, c.McpProxy = some p1 ∧ p1.Options = some po ∧
      (∀ p, d.McpProxy = some p → po.ToolFilter = p.Options.bind OptionsV2.ToolFilter) ∧
      (d.McpProxy = none → po.ToolFilter = none) ∧
      ∀ (out : List (String × Option MCPClientConfigV2)) (i : Nat) (n : String)
        (r : Option MCPClientConfigV2), c.McpServers = some out → out[i]? = some (n, r) →
        ∃ (b1 : MCPClientConfigV2) (o1 : OptionsV2), r = some b1 ∧ b1.Options = some o1 ∧
          (mapLen d.McpServers > 0 →
            ∃ (ms : List (String × Option MCPClientConfigV2)) (b : MCPClientConfigV2),
              d.McpServers = some ms ∧ ms[i]? = some (n, some b) ∧
              o1.ToolFilter = b.Options.bind OptionsV2.ToolFilter) ∧
          (mapLen d.McpServers = 0 → o1.ToolFilter = none) := by
  obtain ⟨p, conf1, hp, hcp, -, -, -, -⟩ := LoadConfig_structure json d c h
  obtain ⟨hcur, hleg⟩ := migrateProxy_McpProxy d p hp
  refine ⟨_, proxyOptions p, hcp, rfl, ?_, ?_, ?_⟩
  · intro p0 hp0
    rw [hcur p0 hp0]
    cases hopt : p0.Options <;> simp [proxyOptions, hopt]
  · intro hn
    exact (hleg hn).2.2
  · intro out i n r hout hi
    obtain ⟨q, hq, -, hc1, hc0⟩ := LoadConfig_result_entry json d c h out hout i n r hi
    rw [hp] at hq
    cases hq
    by_cases hlen : mapLen d.McpServers > 0
    · obtain ⟨ms, b, hms, hmi, hr⟩ := hc1 hlen
      refine ⟨_, cascadeOptions (proxyOptions p) b.Options, hr, rfl, ?_, ?_⟩
      · intro _
        exact ⟨ms, b, hms, hmi, cascadeOptions_toolFilter _ _⟩
      · intro h0
        omega
    · have h0 : mapLen d.McpServers = 0 := by omega
      obtain ⟨b, ⟨b2, o, hb2, hbo, -, -, htf⟩, hr⟩ := hc0 h0
      cases hb2
      refine ⟨_, cascadeOptions (proxyOptions p) b.Options, hr, rfl, ?_, ?_⟩
      · intro hpos
        omega
      · intro _
        rw [cascadeOptions_toolFilter, hbo]
        simp [htf]

theorem C10_toolFilter_not_cascaded_witness :
    LoadConfig tableUnmarshal (.ok docFilter) = .ok configFilter ∧
      ∃ p1 po, configFilter.McpProxy = some p1 ∧ p1.Options = some po ∧
        (∀ p, docFilter.McpProxy = some p →
          po.ToolFilter = p.Options.bind OptionsV2.ToolFilter) ∧
        (docFilter.McpProxy = none → po.ToolFilter = none) ∧
        ∀ (out : List (String × Option MCPClientConfigV2)) (i : Nat) (n : String)
          (r : Option MCPClientConfigV2),
          configFilter.McpServers = some out → out[i]? = some (n, r) →
          ∃ (b1 : MCPClientConfigV2) (o1 : OptionsV2), r = some b1 ∧ b1.Options = some o1 ∧
            (mapLen docFilter.McpServers > 0 →
              ∃ (ms : List (String × Option MCPClientConfigV2)) (b : MCPClientConfigV2),
                docFilter.McpServers = some ms ∧ ms[i]? = some (n, some b) ∧
                o1.ToolFilter = b.Options.bind OptionsV2.ToolFilter) ∧
            (mapLen docFilter.McpServers = 0 → o1.ToolFilter = none) :=
  ⟨by decide,
    C10_toolFilter_not_cascaded tableUnmarshal docFilter configFilter (by decide)⟩

/-! ## The decision table of `parseMCPClientConfigV2` -/

/-- C17: `parseMCPClientConfigV2` selects one variant or fails with an error,
by this table: it succeeds exactly when the command is non-empty, or the
transportType is not "stdio" and the url is non-empty; on success the result
is the stdio variant exactly when the command is non-empty, otherwise the
streamable variant exactly when the transportType is "streamable-http",
otherwise the SSE variant; and a transportType outside the three known names
gives the same result as an absent one. -/
theorem C17_decision_table (conf : MCPClientConfigV2) :
    ((∃ info, parseMCPClientConfigV2 (some conf) = .ok info) ↔
      (conf.Command ≠ "" ∨ (conf.TransportType ≠ MCPClientTypeStdio ∧ conf.URL ≠ ""))) ∧
    ((¬ ∃ info, parseMCPClientConfigV2 (some conf) = .ok info) →
      ∃ msg, parseMCPClientConfigV2 (some conf) = .error (.error msg)) ∧
    (∀ info, parseMCPClientConfigV2 (some conf) = .ok info →
      ((∃ c, info = .stdio c) ↔ conf.Command ≠ "") ∧
      ((∃ c, info = .streamable c) ↔
        (conf.Command = "" ∧ conf.TransportType = MCPClientTypeStreamable)) ∧
      ((∃ c, info = .sse c) ↔
        (conf.Command = "" ∧ conf.TransportType ≠ MCPClientTypeStreamable))) ∧
    (∀ t : MCPClientType, t ≠ MCPClientTypeStdio → t ≠ MCPClientTypeSSE →
      t ≠ MCPClientTypeStreamable →
      parseMCPClientConfigV2 (some { conf with TransportType := t }) =
        parseMCPClientConfigV2 (some { conf with TransportType := "" })) := by
  have hne : MCPClientTypeStreamable ≠ MCPClientTypeStdio := by decide
  have he1 : ("" : MCPClientType) ≠ MCPClientTypeStdio := by decide
  have he2 : ("" : MCPClientType) ≠ MCPClientTypeStreamable := by decide
  refine ⟨?_, ?_, ?_, ?_⟩
  · by_cases hc : conf.Command = "" <;> by_cases hs : conf.TransportType = MCPClientTypeStdio <;>
      by_cases hu : conf.URL = "" <;>
      by_cases ht : conf.TransportType = MCPClientTypeStreamable <;>
      first
        | exact absurd (ht.symm.trans hs) hne
        | simp [parseMCPClientConfigV2, hc, hs, hu, ht, hne]
  · by_cases hc : conf.Command = "" <;> by_cases hs : conf.TransportType = MCPClientTypeStdio <;>
      by_cases hu : conf.URL = "" <;>
      by_cases ht : conf.TransportType = MCPClientTypeStreamable <;>
      first
        | exact absurd (ht.symm.trans hs) hne
        | simp [parseMCPClientConfigV2, hc, hs, hu, ht, hne]
  · intro info
    by_cases hc : conf.Command = "" <;> by_cases hs : conf.TransportType = MCPClientTypeStdio <;>
      by_cases hu : conf.URL = "" <;>
      by_cases ht : conf.TransportType = MCPClientTypeStreamable <;>
      first
        | exact absurd (ht.symm.trans hs) hne
        | (simp [parseMCPClientConfigV2, hc, hs, hu, ht, hne]; done)
        | (simp [parseMCPClientConfigV2, hc, hs, hu, ht, hne]
           intro h
           subst h
           simp)
  · intro t h1 h2 h3
    simp [parseMCPClientConfigV2, h1, h3, he1, he2]

/-! ## Names of the resolved backends, idempotence -/

theorem cascadeEntry_fst (proxy : OptionsV2) (e : String × Option MCPClientConfigV2) :
    (cascadeEntry proxy e).1 = e.1 := rfl

theorem mapNames_cascade (proxy : OptionsV2) (m : GoMap (Option MCPClientConfigV2)) :
    mapNames (m.map (List.map (cascadeEntry proxy))) = mapNames m := by
  cases m with
  | none => rfl
  | some l =>
    simp only [mapNames, Option.map_some', Option.getD_some, List.map_map]
    apply List.map_congr_left
    intro e _
    rfl

theorem OptionsV2_eq (a b : OptionsV2) (h1 : a.PanicIfInvalid = b.PanicIfInvalid)
    (h2 : a.LogEnabled = b.LogEnabled) (h3 : a.AuthTokens = b.AuthTokens)
    (h4 : a.ToolFilter = b.ToolFilter) : a = b := by
  cases a
  cases b
  simp_all

theorem cascadeOptions_idem (proxy : OptionsV2) (o : Option OptionsV2) :
    cascadeOptions proxy (some (cascadeOptions proxy o)) = cascadeOptions proxy o := by
  apply OptionsV2_eq
  · rw [cascadeOptions_panicIfInvalid proxy (some _)]
    simp only [Option.some_bind]
    cases h : (cascadeOptions proxy o).PanicIfInvalid with
    | some v => rfl
    | none =>
      rw [cascadeOptions_panicIfInvalid] at h
      cases h2 : o.bind OptionsV2.PanicIfInvalid with
      | none => rw [h2] at h; exact h
      | some v => rw [h2] at h; cases h
  · rw [cascadeOptions_logEnabled proxy (some _)]
    simp only [Option.some_bind]
    cases h : (cascadeOptions proxy o).LogEnabled with
    | some v => rfl
    | none =>
      rw [cascadeOptions_logEnabled] at h
      cases h2 : o.bind OptionsV2.LogEnabled with
      | none => rw [h2] at h; exact h
      | some v => rw [h2] at h; cases h
  · rw [cascadeOptions_authTokens proxy (some _)]
    simp only [Option.some_bind]
    cases h : (cascadeOptions proxy o).AuthTokens with
    | some v => rfl
    | none =>
      rw [cascadeOptions_authTokens] at h
      cases h2 : o.bind OptionsV2.AuthTokens with
      | none => rw [h2] at h; exact h
      | some v => rw [h2] at h; cases h
  · rw [cascadeOptions_toolFilter proxy (some _)]
    rfl

theorem cascadeEntry_idem (proxy : OptionsV2) (e : String × Option MCPClientConfigV2) :
    cascadeEntry proxy (cascadeEntry proxy e) = cascadeEntry proxy e := by
  obtain ⟨n, v⟩ := e
  cases v with
  | none => rfl
  | some b => simp [cascadeEntry, cascadeOptions_idem]

theorem cascadeEntry_nonnil (proxy : OptionsV2) (l : List (String × Option MCPClientConfigV2))
    (h : ∀ e ∈ l, e.2 ≠ none) : ∀ e ∈ l.map (cascadeEntry proxy), e.2 ≠ none := by
  intro e he
  obtain ⟨e0, he0, rfl⟩ := List.mem_map.mp he
  have h0 := h e0 he0
  obtain ⟨n, v⟩ := e0
  cases v with
  | none => exact absurd rfl h0
  | some b => simp [cascadeEntry]

/-- C12: when `LoadConfig` returns a Config for a document whose current-shape
mcpServers has at least one entry, the backend names of the result are the
names in mcpServers, in the same enumeration order: no legacy `clients` entry
is migrated, whatever `clients` holds. -/
theorem C12_no_migration_with_current_backends (json : Unmarshal) (d : FullConfig)
    (c : Config) (h : LoadConfig json (.ok d) = .ok c) (hlen : mapLen d.McpServers > 0) :
    mapNames c.McpServers = mapNames d.McpServers := by
  obtain ⟨p, conf1, -, -, hcs, hcur, -, -⟩ := LoadConfig_structure json d c h
  rw [hcs, mapNames_cascade, hcur hlen]

theorem C12_no_migration_with_current_backends_witness :
    LoadConfig tableUnmarshal (.ok docBothShapes) =
        .ok { McpProxy := some { sampleProxy with Options := some {} }
              McpServers := some [("a", some { sampleStreamable with Options := some {} })] } ∧
      mapLen docBothShapes.McpServers > 0 ∧
      mapNames (some [("a", some { sampleStreamable with Options := some {} })]) =
        mapNames docBothShapes.McpServers :=
  ⟨by decide, by decide,
    C12_no_migration_with_current_backends tableUnmarshal docBothShapes
      { McpProxy := some { sampleProxy with Options := some {} }
        McpServers := some [("a", some { sampleStreamable with Options := some {} })] }
      (by decide) (by decide)⟩

/-- C18: resolution is idempotent: when `LoadConfig` returns the Config `c`,
it returns `c` again for the document that consists of exactly the mcpProxy
and mcpServers of `c`. -/
theorem C18_resolution_idempotent (json : Unmarshal) (d : FullConfig) (c : Config)
    (h : LoadConfig json (.ok d) = .ok c) :
    LoadConfig json (.ok (documentOf c)) = .ok c := by
  obtain ⟨p, conf1, -, hcp, hcs, -, -, hnn⟩ := LoadConfig_structure json d c h
  have hp2 : (documentOf c).McpProxy = some { p with Options := some (proxyOptions p) } := hcp
  have hcl : mapLen (documentOf c).DeprecatedClientsV1 = 0 := rfl
  have hnn2 : ∀ s, (documentOf c).McpServers = some s → ∀ e ∈ s, e.2 ≠ none := by
    intro s hs
    have hs1 : c.McpServers = some s := hs
    rw [hcs] at hs1
    cases hm : conf1.McpServers with
    | none => simp [hm] at hs1
    | some l =>
      simp [hm] at hs1
      rw [← hs1]
      exact cascadeEntry_nonnil _ l (hnn l hm)
  simp only [LoadConfig, migrateProxy_of_proxy _ _ hp2,
    migrateClients_of_no_clients json _ hcl]
  rw [cascade_of_nonnil _ _ hp2 hnn2]
  have hpo : proxyOptions { p with Options := some (proxyOptions p) } = proxyOptions p := rfl
  rw [hpo]
  have hs2 : (documentOf c).McpServers = c.McpServers := rfl
  rw [hs2]
  cases c with
  | mk cp cs =>
    simp only at hcp hcs
    subst hcp
    congr 2
    rw [hcs]
    cases conf1.McpServers with
    | none => rfl
    | some l =>
      simp only [Option.map_some', List.map_map]
      congr 1
      apply List.map_congr_left
      intro e _
      exact cascadeEntry_idem _ e

theorem C18_resolution_idempotent_witness :
    LoadConfig tableUnmarshal (.ok docLegacy) = .ok configLegacy ∧
      LoadConfig tableUnmarshal (.ok (documentOf configLegacy)) = .ok configLegacy :=
  ⟨by decide, C18_resolution_idempotent tableUnmarshal docLegacy configLegacy (by decide)⟩

/-! ## Lemmas on the migration loop -/

theorem parseMCPClientConfigV1_some (json : Unmarshal) (cc : MCPClientConfigV1) :
    parseMCPClientConfigV1 json (some cc) ≠ .error .nilDereference := by
  simp only [parseMCPClientConfigV1]
  split_ifs
  · cases h : json.stdio cc.Config <;> simp
  · cases h : json.sse cc.Config <;> simp
  · cases h : json.streamable cc.Config <;> simp
  · simp

theorem migrateClientStep_none (json : Unmarshal) (server : Option MCPProxyConfigV1)
    (servers : List (String × Option MCPClientConfigV2)) (n : String) :
    migrateClientStep json server servers (n, none) = .error .nilDereference := rfl

theorem migrateClientStep_of_ok (json : Unmarshal) (server : Option MCPProxyConfigV1)
    (servers : List (String × Option MCPClientConfigV2)) (n : String)
    (cc : MCPClientConfigV1) (info : ClientInfo)
    (h : parseMCPClientConfigV1 json (some cc) = .ok info) :
    migrateClientStep json server servers (n, some cc) =
      .ok (mapSet servers n (some (migratedClient info (migratedOptions server cc)))) := by
  simp [migrateClientStep, h]

theorem migrateClientStep_of_error (json : Unmarshal) (server : Option MCPProxyConfigV1)
    (servers : List (String × Option MCPClientConfigV2)) (n : String)
    (cc : MCPClientConfigV1) (f : Failure)
    (h : parseMCPClientConfigV1 json (some cc) = .error f) :
    migrateClientStep json server servers (n, some cc) = .ok servers := by
  cases f with
  | nilDereference => exact absurd h (parseMCPClientConfigV1_some json cc)
  | error msg => simp [migrateClientStep, h]

theorem migrateClientLoop_of_nonnil (json : Unmarshal) (server : Option MCPProxyConfigV1) :
    ∀ (clients : List (String × Option MCPClientConfigV1))
      (servers : List (String × Option MCPClientConfigV2)),
      (∀ e ∈ clients, e.2 ≠ none) →
      ∃ out, migrateClientLoop json server servers clients = .ok out := by
  intro clients
  induction clients with
  | nil => intro servers _; exact ⟨servers, rfl⟩
  | cons e rest ih =>
    intro servers h
    obtain ⟨n, v⟩ := e
    have hrest : ∀ e ∈ rest, e.2 ≠ none := fun e he => h e (List.mem_cons_of_mem _ he)
    cases v with
    | none => exact absurd rfl (h (n, none) (List.mem_cons_self _ _))
    | some cc =>
      cases hp : parseMCPClientConfigV1 json (some cc) with
      | ok info =>
        simp only [migrateClientLoop, migrateClientStep_of_ok json server servers n cc info hp]
        exact ih _ hrest
      | error f =>
        simp only [migrateClientLoop, migrateClientStep_of_error json server servers n cc f hp]
        exact ih _ hrest

theorem migrateClientLoop_nonnil_of_ok (json : Unmarshal) (server : Option MCPProxyConfigV1) :
    ∀ (clients : List (String × Option MCPClientConfigV1))
      (servers out : List (String × Option MCPClientConfigV2)),
      migrateClientLoop json server servers clients = .ok out →
      ∀ e ∈ clients, e.2 ≠ none := by
  intro clients
  induction clients with
  | nil => intro servers out _ e he; simp at he
  | cons e rest ih =>
    intro servers out h
    obtain ⟨n, v⟩ := e
    cases v with
    | none => simp [migrateClientLoop, migrateClientStep_none] at h
    | some cc =>
      simp only [migrateClientLoop] at h
      cases hstep : migrateClientStep json server servers (n, some cc) with
      | error f => simp [hstep] at h
      | ok servers1 =>
        simp only [hstep] at h
        intro e he
        rcases List.mem_cons.mp he with rfl | he
        · simp
        · exact ih servers1 out h e he

theorem mapSet_names {V : Type} (k : String) (v : V) :
    ∀ (m : List (String × V)) (n : String),
      n ∈ (mapSet m k v).map Prod.fst ↔ n ∈ m.map Prod.fst ∨ n = k := by
  intro m
  induction m with
  | nil => intro n; simp [mapSet]
  | cons a rest ih =>
    intro n
    obtain ⟨k0, v0⟩ := a
    simp only [mapSet]
    split
    · rename_i hk
      subst hk
      simp
      tauto
    · simp only [List.map_cons, List.mem_cons, ih n]
      tauto

theorem mapSet_of_not_mem {V : Type} (k : String) (v : V) :
    ∀ (m : List (String × V)), k ∉ m.map Prod.fst → mapSet m k v = m ++ [(k, v)] := by
  intro m
  induction m with
  | nil => intro _; rfl
  | cons a rest ih =>
    intro h
    obtain ⟨k0, v0⟩ := a
    simp only [List.map_cons, List.mem_cons, not_or] at h
    simp only [mapSet]
    rw [if_neg (fun hk => h.1 hk.symm), ih h.2]
    rfl

theorem migrateClientLoop_names (json : Unmarshal) (server : Option MCPProxyConfigV1) :
    ∀ (clients : List (String × Option MCPClientConfigV1))
      (servers out : List (String × Option MCPClientConfigV2)),
      migrateClientLoop json server servers clients = .ok out →
      ∀ n, n ∈ out.map Prod.fst ↔
        (n ∈ servers.map Prod.fst ∨
          ∃ e ∈ clients, e.1 = n ∧ ∃ info, parseMCPClientConfigV1 json e.2 = .ok info) := by
  intro clients
  induction clients with
  | nil =>
    intro servers out h n
    simp [migrateClientLoop] at h
    simp [h]
  | cons e rest ih =>
    intro servers out h n
    obtain ⟨k, v⟩ := e
    cases v with
    | none => simp [migrateClientLoop, migrateClientStep_none] at h
    | some cc =>
      simp only [migrateClientLoop] at h
      cases hp : parseMCPClientConfigV1 json (some cc) with
      | ok info =>
        rw [migrateClientStep_of_ok json server servers k cc info hp] at h
        simp only at h
        rw [ih _ out h n, mapSet_names]
        simp only [List.mem_cons, exists_eq_or_imp, hp]
        constructor
        · rintro ((h1 | h1) | h1)
          · exact Or.inl h1
          · exact Or.inr (Or.inl ⟨h1.symm, info, rfl⟩)
          · exact Or.inr (Or.inr h1)
        · rintro (h1 | ⟨h1, -⟩ | h1)
          · exact Or.inl (Or.inl h1)
          · exact Or.inl (Or.inr h1.symm)
          · exact Or.inr h1
      | error f =>
        rw [migrateClientStep_of_error json server servers k cc f hp] at h
        simp only at h
        rw [ih _ out h n]
        simp only [List.mem_cons, exists_eq_or_imp, hp]
        simp

theorem migrateClientLoop_eq_filterMap (json : Unmarshal) (server : Option MCPProxyConfigV1) :
    ∀ (clients : List (String × Option MCPClientConfigV1))
      (servers out : List (String × Option MCPClientConfigV2)),
      (clients.map Prod.fst).Nodup →
      (∀ e ∈ clients, e.1 ∉ servers.map Prod.fst) →
      migrateClientLoop json server servers clients = .ok out →
      out = servers ++ clients.filterMap (migratedEntry json server) := by
  intro clients
  induction clients with
  | nil =>
    intro servers out _ _ h
    simp [migrateClientLoop] at h
    simp [h]
  | cons e rest ih =>
    intro servers out hnd hdis h
    obtain ⟨k, v⟩ := e
    simp only [List.map_cons, List.nodup_cons] at hnd
    have hk : k ∉ servers.map Prod.fst := hdis (k, v) (List.mem_cons_self _ _)
    have hdis1 : ∀ e ∈ rest, e.1 ∉ servers.map Prod.fst :=
      fun e he => hdis e (List.mem_cons_of_mem _ he)
    cases v with
    | none => simp [migrateClientLoop, migrateClientStep_none] at h
    | some cc =>
      simp only [migrateClientLoop] at h
      cases hp : parseMCPClientConfigV1 json (some cc) with
      | ok info =>
        rw [migrateClientStep_of_ok json server servers k cc info hp] at h
        simp only at h
        rw [mapSet_of_not_mem k _ servers hk] at h
        have hdis2 : ∀ e ∈ rest, e.1 ∉ (servers ++
            [(k, some (migratedClient info (migratedOptions server cc)))]).map Prod.fst := by
          intro e he hmem
          simp only [List.map_append, List.map_cons, List.map_nil, List.mem_append,
            List.mem_singleton] at hmem
          rcases hmem with hmem | hmem
          · exact hdis1 e he hmem
          · exact hnd.1 (hmem ▸ List.mem_map_of_mem Prod.fst he)
        rw [ih _ out hnd.2 hdis2 h]
        simp [List.filterMap_cons, migratedEntry, hp]
      | error f =>
        rw [migrateClientStep_of_error json server servers k cc f hp] at h
        simp only at h
        rw [ih _ out hnd.2 hdis1 h]
        simp [List.filterMap_cons, migratedEntry, hp]

/-! ## Lemmas on loading a legacy document -/

theorem migrateProxy_of_no_server (d : FullConfig) (hs : d.DeprecatedServerV1 = none) :
    migrateProxy d = d := by
  unfold migrateProxy
  split
  · rename_i v1 h1 h2
    rw [hs] at h1
    cases h1
  · rfl

theorem migrateProxy_of_legacy (d : FullConfig) (v1 : MCPProxyConfigV1)
    (hs : d.DeprecatedServerV1 = some v1) (hp : d.McpProxy = none) :
    (migrateProxy d).McpProxy = some
      { BaseURL := v1.BaseURL, Addr := v1.Addr, Name := v1.Name, Version := v1.Version,
        Options := some { AuthTokens := v1.GlobalAuthTokens } } := by
  unfold migrateProxy
  split
  · rename_i v h1 h2
    rw [hs] at h1
    cases h1
    rfl
  · rename_i hne
    exact absurd hp (fun h => hne v1 hs h)

theorem migrateClients_cases (json : Unmarshal) (conf conf1 : FullConfig)
    (h : migrateClients json conf = .ok conf1) :
    (mapLen conf.DeprecatedClientsV1 > 0 ∧ mapLen conf.McpServers = 0 ∧
      ∃ out, migrateClientLoop json conf.DeprecatedServerV1 []
          (conf.DeprecatedClientsV1.getD []) = .ok out ∧
        conf1.McpServers = some out) ∨
    (¬ (mapLen conf.DeprecatedClientsV1 > 0 ∧ mapLen conf.McpServers = 0) ∧ conf1 = conf) := by
  unfold migrateClients at h
  split at h
  · rename_i hc
    cases hl : migrateClientLoop json conf.DeprecatedServerV1 []
        (conf.DeprecatedClientsV1.getD []) with
    | error e => simp [hl] at h
    | ok servers =>
      simp [hl] at h
      exact Or.inl ⟨hc.1, hc.2, servers, rfl, by rw [← h]⟩
  · rename_i hc
    cases h
    exact Or.inr ⟨hc, rfl⟩

theorem migrateClients_of_nonnil (json : Unmarshal) (conf : FullConfig)
    (hnn : ∀ e ∈ conf.DeprecatedClientsV1.getD [], e.2 ≠ none) :
    ∃ conf1, migrateClients json conf = .ok conf1 := by
  unfold migrateClients
  split
  · obtain ⟨out, hout⟩ := migrateClientLoop_of_nonnil json conf.DeprecatedServerV1
      (conf.DeprecatedClientsV1.getD []) [] hnn
    rw [hout]
    exact ⟨_, rfl⟩
  · exact ⟨_, rfl⟩

theorem mapLen_zero_getD {V : Type} (m : GoMap V) (h : mapLen m = 0) : m.getD [] = [] := by
  cases m with
  | none => rfl
  | some l =>
    cases l with
    | nil => rfl
    | cons a l => simp [mapLen] at h

theorem migrateClients_names (json : Unmarshal) (conf conf1 : FullConfig)
    (h : migrateClients json conf = .ok conf1) (hms : mapLen conf.McpServers = 0) :
    ∀ n, n ∈ mapNames conf1.McpServers ↔
      ∃ e ∈ conf.DeprecatedClientsV1.getD [], e.1 = n ∧
        ∃ info, parseMCPClientConfigV1 json e.2 = .ok info := by
  intro n
  rcases migrateClients_cases json conf conf1 h with ⟨-, -, out, hloop, hout⟩ | ⟨hc, heq⟩
  · rw [hout]
    have := migrateClientLoop_names json _ _ [] out hloop n
    simpa [mapNames] using this
  · subst heq
    have h0 : mapLen conf1.DeprecatedClientsV1 = 0 := by omega
    rw [mapLen_zero_getD _ h0]
    simp [mapNames, mapLen_zero_getD _ hms]

theorem migrateClients_filterMap (json : Unmarshal) (conf conf1 : FullConfig)
    (h : migrateClients json conf = .ok conf1) (hms : mapLen conf.McpServers = 0)
    (cl : List (String × Option MCPClientConfigV1))
    (hcl : conf.DeprecatedClientsV1 = some cl) (hne : cl ≠ [])
    (hnd : (cl.map Prod.fst).Nodup) :
    conf1.McpServers = some (cl.filterMap (migratedEntry json conf.DeprecatedServerV1)) := by
  rcases migrateClients_cases json conf conf1 h with ⟨-, -, out, hloop, hout⟩ | ⟨hc, -⟩
  · rw [hcl] at hloop
    have := migrateClientLoop_eq_filterMap json _ cl [] out hnd (by simp) hloop
    rw [hout, this]
    simp
  · exfalso
    apply hc
    refine ⟨?_, hms⟩
    rw [hcl]
    cases cl with
    | nil => exact absurd rfl hne
    | cons a l => simp [mapLen]

theorem LoadConfig_of_migrate (json : Unmarshal) (d conf1 : FullConfig)
    (p : MCPProxyConfigV2)
    (hm : migrateClients json (migrateProxy d) = .ok conf1)
    (hp : conf1.McpProxy = some p)
    (hnn : ∀ s, conf1.McpServers = some s → ∀ e ∈ s, e.2 ≠ none) :
    LoadConfig json (.ok d) = .ok
      { McpProxy := some { p with Options := some (proxyOptions p) }
        McpServers := conf1.McpServers.map (List.map (cascadeEntry (proxyOptions p))) } := by
  simp only [LoadConfig, hm]
  exact cascade_of_nonnil conf1 p hp hnn

theorem MigratedShape_nonnil (l : List (String × Option MCPClientConfigV2))
    (h : ∀ e ∈ l, MigratedShape e.2) : ∀ e ∈ l, e.2 ≠ none := by
  intro e he hn
  obtain ⟨c, o, hc, -⟩ := h e he
  rw [hn] at hc
  cases hc

theorem LoadConfig_legacy_ok (json : Unmarshal) (d : FullConfig) (v1 : MCPProxyConfigV1)
    (hs : d.DeprecatedServerV1 = some v1) (hp : d.McpProxy = none)
    (hms : mapLen d.McpServers = 0)
    (hnn : ∀ e ∈ d.DeprecatedClientsV1.getD [], e.2 ≠ none) :
    ∃ conf1, migrateClients json (migrateProxy d) = .ok conf1 ∧
      LoadConfig json (.ok d) = .ok
        { McpProxy := some
            { BaseURL := v1.BaseURL, Addr := v1.Addr, Name := v1.Name, Version := v1.Version,
              Options := some { AuthTokens := v1.GlobalAuthTokens } }
          McpServers := conf1.McpServers.map
            (List.map (cascadeEntry { AuthTokens := v1.GlobalAuthTokens })) } := by
  have hnn1 : ∀ e ∈ (migrateProxy d).DeprecatedClientsV1.getD [], e.2 ≠ none := by
    rw [migrateProxy_clients]
    exact hnn
  obtain ⟨conf1, hm⟩ := migrateClients_of_nonnil json (migrateProxy d) hnn1
  have hms1 : mapLen (migrateProxy d).McpServers = 0 := by
    rw [migrateProxy_McpServers]
    exact hms
  have hp1 : conf1.McpProxy = some
      { BaseURL := v1.BaseURL, Addr := v1.Addr, Name := v1.Name, Version := v1.Version,
        Options := some { AuthTokens := v1.GlobalAuthTokens } } := by
    rw [migrateClients_McpProxy json _ conf1 hm]
    exact migrateProxy_of_legacy d v1 hs hp
  have hnn2 : ∀ s, conf1.McpServers = some s → ∀ e ∈ s, e.2 ≠ none :=
    fun s hs1 => MigratedShape_nonnil s (migrateClients_shape json _ conf1 hm hms1 s hs1)
  exact ⟨conf1, hm, LoadConfig_of_migrate json d conf1 _ hm hp1 hnn2⟩

theorem migratedClient_options (info : ClientInfo) (o : OptionsV2) :
    (migratedClient info o).Options = some o := by
  cases info <;> rfl

theorem migratedEntry_fst (json : Unmarshal) (server : Option MCPProxyConfigV1)
    (e : String × Option MCPClientConfigV1) (e0 : String × Option MCPClientConfigV2)
    (h : migratedEntry json server e = some e0) : e0.1 = e.1 := by
  unfold migratedEntry at h
  split at h
  · cases h
  · split at h
    · cases h
      rfl
    · cases h

theorem migrated_authTokens (v1 : MCPProxyConfigV1) (cc : MCPClientConfigV1) :
    (cascadeOptions { AuthTokens := v1.GlobalAuthTokens }
        (some (migratedOptions (some v1) cc))).AuthTokens.getD [] =
      cc.AuthTokens.getD [] ++ v1.GlobalAuthTokens.getD [] := by
  rw [cascadeOptions_authTokens]
  simp only [Option.some_bind, migratedOptions]
  cases hG : v1.GlobalAuthTokens with
  | none =>
    cases hB : cc.AuthTokens <;> simp [sliceLen]
  | some g =>
    cases g with
    | nil => cases hB : cc.AuthTokens <;> simp [sliceLen]
    | cons x xs => cases hB : cc.AuthTokens <;> simp [sliceLen, goAppend]

/-! ## Migration of a legacy document -/

/-- C11: for a legacy-only document (server present, mcpProxy absent,
mcpServers empty) on which `LoadConfig` returns a Config, every legacy backend
whose payload decodes is in the result under its name, exactly once, and its
resolved authTokens are its own authTokens followed by the legacy proxy's
globalAuthTokens. The names of `clients`, the keys of a map, are pairwise
distinct. -/
theorem C11_legacy_authTokens (json : Unmarshal) (d : FullConfig) (c : Config)
    (v1 : MCPProxyConfigV1) (cl : List (String × Option MCPClientConfigV1))
    (h : LoadConfig json (.ok d) = .ok c)
    (hs : d.DeprecatedServerV1 = some v1) (hp : d.McpProxy = none)
    (hms : mapLen d.McpServers = 0)
    (hcl : d.DeprecatedClientsV1 = some cl) (hnd : (cl.map Prod.fst).Nodup)
    (n : String) (cc : MCPClientConfigV1) (info : ClientInfo)
    (hmem : (n, some cc) ∈ cl)
    (hdec : parseMCPClientConfigV1 json (some cc) = .ok info) :
    ∃ (out : List (String × Option MCPClientConfigV2)) (b1 : MCPClientConfigV2)
      (o1 : OptionsV2), c.McpServers = some out ∧ (n, some b1) ∈ out ∧
      (∀ r, (n, r) ∈ out → r = some b1) ∧ b1.Options = some o1 ∧
      o1.AuthTokens.getD [] = cc.AuthTokens.getD [] ++ v1.GlobalAuthTokens.getD [] := by
  obtain ⟨conf1, hm, hcas⟩ := LoadConfig_eq_ok json d c h
  obtain ⟨p, hp1, -, hcs, -⟩ := cascade_eq_ok conf1 c hcas
  rw [migrateClients_McpProxy json _ conf1 hm, migrateProxy_of_legacy d v1 hs hp] at hp1
  cases hp1
  have hms1 : mapLen (migrateProxy d).McpServers = 0 := by
    rw [migrateProxy_McpServers]
    exact hms
  have hcl1 : (migrateProxy d).DeprecatedClientsV1 = some cl := by
    rw [migrateProxy_clients]
    exact hcl
  have hne : cl ≠ [] := List.ne_nil_of_mem hmem
  have hfm := migrateClients_filterMap json _ conf1 hm hms1 cl hcl1 hne hnd
  rw [migrateProxy_server, hs] at hfm
  rw [hfm] at hcs
  have hpo : proxyOptions
      { BaseURL := v1.BaseURL, Addr := v1.Addr, Name := v1.Name, Version := v1.Version,
        Options := some { AuthTokens := v1.GlobalAuthTokens } } =
      { AuthTokens := v1.GlobalAuthTokens } := rfl
  rw [hpo] at hcs
  have hent : migratedEntry json (some v1) (n, some cc) =
      some (n, some (migratedClient info (migratedOptions (some v1) cc))) := by
    simp [migratedEntry, hdec]
  refine ⟨_, { migratedClient info (migratedOptions (some v1) cc) with
      Options := some (cascadeOptions { AuthTokens := v1.GlobalAuthTokens }
        (migratedClient info (migratedOptions (some v1) cc)).Options) },
    _, hcs, ?_, ?_, rfl, ?_⟩
  · apply List.mem_map.mpr
    exact ⟨_, List.mem_filterMap.mpr ⟨_, hmem, hent⟩, rfl⟩
  · intro r hr
    obtain ⟨e0, he0, hce⟩ := List.mem_map.mp hr
    obtain ⟨e, he, hme⟩ := List.mem_filterMap.mp he0
    have hfst : e.1 = n := by
      rw [← migratedEntry_fst json _ e e0 hme]
      exact congrArg Prod.fst hce
    have heq : e = (n, some cc) := List.inj_on_of_nodup_map hnd he hmem hfst
    rw [heq, hent] at hme
    cases hme
    exact (congrArg Prod.snd hce).symm
  · rw [migratedClient_options]
    exact migrated_authTokens v1 cc

theorem C11_legacy_authTokens_witness :
    LoadConfig tableUnmarshal (.ok docLegacy) = .ok configLegacy ∧
      ∃ (out : List (String × Option MCPClientConfigV2)) (b1 : MCPClientConfigV2)
        (o1 : OptionsV2), configLegacy.McpServers = some out ∧ ("old", some b1) ∈ out ∧
        (∀ r, ("old", r) ∈ out → r = some b1) ∧ b1.Options = some o1 ∧
        o1.AuthTokens.getD [] = ["b"] ++ ["g"] :=
  ⟨by decide,
    C11_legacy_authTokens tableUnmarshal docLegacy configLegacy sampleServerV1 _
      (by decide) rfl rfl (by decide) rfl (by decide) "old" sampleClientV1
      (.stdio { Command := "run.sh", Env := none, Args := none }) (by decide) (by decide)⟩

/-- C19: for a legacy-only document (server present, mcpProxy absent,
mcpServers empty) on which `LoadConfig` returns a Config, the proxy options of
the result carry the legacy globalAuthTokens and nothing else, and every
backend of the result has panicIfInvalid and logEnabled unset and no tool
filter, whatever the flat panicIfInvalid and logEnabled of the legacy record. -/
theorem C19_legacy_flags_dropped (json : Unmarshal) (d : FullConfig) (c : Config)
    (v1 : MCPProxyConfigV1) (h : LoadConfig json (.ok d) = .ok c)
    (hs : d.DeprecatedServerV1 = some v1) (hp : d.McpProxy = none)
    (hms : mapLen d.McpServers = 0) :
    (∃ p1, c.McpProxy = some p1 ∧
      p1.Options = some
        { PanicIfInvalid := none, LogEnabled := none, AuthTokens := v1.GlobalAuthTokens,
          ToolFilter := none }) ∧
    ∀ (out : List (String × Option MCPClientConfigV2)) (i : Nat) (n : String)
      (r : Option MCPClientConfigV2), c.McpServers = some out → out[i]? = some (n, r) →
      ∃ (b1 : MCPClientConfigV2) (o1 : OptionsV2), r = some b1 ∧ b1.Options = some o1 ∧
        o1.PanicIfInvalid = none ∧ o1.LogEnabled = none ∧ o1.ToolFilter = none := by
  have hmp := migrateProxy_of_legacy d v1 hs hp
  refine ⟨?_, ?_⟩
  · obtain ⟨p, conf1, hp1, hcp, -⟩ := LoadConfig_structure json d c h
    rw [hmp] at hp1
    cases hp1
    exact ⟨_, hcp, rfl⟩
  · intro out i n r hout hi
    obtain ⟨p, hp1, -, -, hc0⟩ := LoadConfig_result_entry json d c h out hout i n r hi
    rw [hmp] at hp1
    cases hp1
    obtain ⟨b, ⟨b2, o, hb2, hbo, hpan, hlog, htf⟩, hr⟩ := hc0 hms
    cases hb2
    refine ⟨_, _, hr, rfl, ?_, ?_, ?_⟩
    · rw [cascadeOptions_panicIfInvalid, hbo]
      simp [hpan, proxyOptions]
    · rw [cascadeOptions_logEnabled, hbo]
      simp [hlog, proxyOptions]
    · rw [cascadeOptions_toolFilter, hbo]
      simp [htf]

theorem C19_legacy_flags_dropped_witness :
    LoadConfig tableUnmarshal (.ok docLegacy) = .ok configLegacy ∧
      sampleClientV1.PanicIfInvalid = true ∧ sampleClientV1.LogEnabled = true ∧
      ∃ (b1 : MCPClientConfigV2) (o1 : OptionsV2),
        (some { Command := "run.sh", Options := some { AuthTokens := some ["b", "g"] } } :
            Option MCPClientConfigV2) = some b1 ∧
        b1.Options = some o1 ∧
        o1.PanicIfInvalid = none ∧ o1.LogEnabled = none ∧ o1.ToolFilter = none :=
  ⟨by decide, rfl, rfl,
    (C19_legacy_flags_dropped tableUnmarshal docLegacy configLegacy sampleServerV1
      (by decide) rfl rfl (by decide)).2 _ 0 "old" _ rfl rfl⟩

theorem parseMCPClientConfigV1_ok_iff (json : Unmarshal) (cc : MCPClientConfigV1) :
    (∃ info, parseMCPClientConfigV1 json (some cc) = .ok info) ↔
      ((cc.Type_ = MCPClientTypeStdio ∧ ∃ x, json.stdio cc.Config = .ok x) ∨
        (cc.Type_ = MCPClientTypeSSE ∧ ∃ x, json.sse cc.Config = .ok x) ∨
        (cc.Type_ = MCPClientTypeStreamable ∧ ∃ x, json.streamable cc.Config = .ok x)) := by
  have h1 : MCPClientTypeSSE ≠ MCPClientTypeStdio := by decide
  have h2 : MCPClientTypeStreamable ≠ MCPClientTypeStdio := by decide
  have h3 : MCPClientTypeStreamable ≠ MCPClientTypeSSE := by decide
  simp only [parseMCPClientConfigV1]
  split_ifs with hs he ht
  · cases h : json.stdio cc.Config <;> simp [hs, h1.symm, h2.symm]
  · cases h : json.sse cc.Config <;> simp [he, h1, h3.symm]
  · cases h : json.streamable cc.Config <;> simp [ht, h2, h3]
  · simp [hs, he, ht]

theorem LoadConfig_missing_proxy (json : Unmarshal) (d : FullConfig)
    (hs : d.DeprecatedServerV1 = none) (hp : d.McpProxy = none)
    (hnn : (∀ e ∈ d.DeprecatedClientsV1.getD [], e.2 ≠ none) ∨ mapLen d.McpServers > 0) :
    LoadConfig json (.ok d) = .error (.error "mcpProxy is required") := by
  have hconf : ∃ conf1, migrateClients json d = .ok conf1 := by
    rcases hnn with hnn | hlen
    · exact migrateClients_of_nonnil json d hnn
    · exact ⟨d, migrateClients_of_servers json d hlen⟩
  obtain ⟨conf1, hm⟩ := hconf
  have hp1 : conf1.McpProxy = none := by
    rw [migrateClients_McpProxy json d conf1 hm]
    exact hp
  simp [LoadConfig, migrateProxy_of_no_server d hs, hm, cascade, hp1]

theorem LoadConfig_legacy_names (json : Unmarshal) (d : FullConfig) (v1 : MCPProxyConfigV1)
    (hs : d.DeprecatedServerV1 = some v1) (hp : d.McpProxy = none)
    (hms : mapLen d.McpServers = 0)
    (hnn : ∀ e ∈ d.DeprecatedClientsV1.getD [], e.2 ≠ none) :
    ∃ c, LoadConfig json (.ok d) = .ok c ∧
      ∀ n, n ∈ mapNames c.McpServers ↔
        ∃ e ∈ d.DeprecatedClientsV1.getD [], e.1 = n ∧
          ∃ info, parseMCPClientConfigV1 json e.2 = .ok info := by
  obtain ⟨conf1, hm, hload⟩ := LoadConfig_legacy_ok json d v1 hs hp hms hnn
  refine ⟨_, hload, ?_⟩
  intro n
  have hms1 : mapLen (migrateProxy d).McpServers = 0 := by
    rw [migrateProxy_McpServers]
    exact hms
  have := migrateClients_names json _ conf1 hm hms1 n
  rw [migrateProxy_clients] at this
  simp only [mapNames_cascade]
  exact this

theorem LoadConfig_current_passthrough (json : Unmarshal) (d : FullConfig)
    (p : MCPProxyConfigV2)
    (hcl : d.DeprecatedClientsV1 = none) (hp : d.McpProxy = some p)
    (hnn : ∀ e ∈ d.McpServers.getD [], e.2 ≠ none) :
    LoadConfig json (.ok d) = .ok
      { McpProxy := some { p with Options := some (proxyOptions p) }
        McpServers := d.McpServers.map (List.map (cascadeEntry (proxyOptions p))) } := by
  have h0 : mapLen d.DeprecatedClientsV1 = 0 := by
    rw [hcl]
    rfl
  have hnn1 : ∀ s, d.McpServers = some s → ∀ e ∈ s, e.2 ≠ none := by
    intro s hs1
    rw [hs1] at hnn
    exact hnn
  simp only [LoadConfig, migrateProxy_of_proxy d p hp, migrateClients_of_no_clients json d h0]
  exact cascade_of_nonnil d p hp hnn1

theorem LoadConfig_no_panic (json : Unmarshal) (d : FullConfig)
    (hcl : ∀ e ∈ d.DeprecatedClientsV1.getD [], e.2 ≠ none)
    (hsv : ∀ e ∈ d.McpServers.getD [], e.2 ≠ none) :
    LoadConfig json (.ok d) ≠ .error .nilDereference := by
  have hcl1 : ∀ e ∈ (migrateProxy d).DeprecatedClientsV1.getD [], e.2 ≠ none := by
    rw [migrateProxy_clients]
    exact hcl
  obtain ⟨conf1, hm⟩ := migrateClients_of_nonnil json (migrateProxy d) hcl1
  have hnn : ∀ s, conf1.McpServers = some s → ∀ e ∈ s, e.2 ≠ none := by
    rcases migrateClients_cases json _ conf1 hm with ⟨-, hlen, -, -, -⟩ | ⟨-, heq⟩
    · exact fun s hs1 =>
        MigratedShape_nonnil s (migrateClients_shape json _ conf1 hm hlen s hs1)
    · intro s hs1
      rw [heq, migrateProxy_McpServers] at hs1
      rw [hs1] at hsv
      exact hsv
  simp only [LoadConfig, hm]
  cases hp : conf1.McpProxy with
  | none => simp [cascade, hp]
  | some p =>
    rw [cascade_of_nonnil conf1 p hp hnn]
    simp

/-! ## Null records, and the migration of a streamable backend -/

/-- C13: a document with neither `server` nor `mcpProxy` and a null entry in
`clients` makes `LoadConfig` panic on a nil dereference in the migration loop,
before the missing-proxy check is reached; for every document with neither
`server` nor `mcpProxy` whose `clients` entries are all non-null, or whose
mcpServers is not empty, `LoadConfig` fails with "mcpProxy is required". -/
theorem C13_missing_proxy :
    (docNoProxyNullClient.DeprecatedServerV1 = none ∧ docNoProxyNullClient.McpProxy = none ∧
      LoadConfig tableUnmarshal (.ok docNoProxyNullClient) = .error .nilDereference) ∧
    (∀ (json : Unmarshal) (d : FullConfig),
      d.DeprecatedServerV1 = none → d.McpProxy = none →
      ((∀ e ∈ d.DeprecatedClientsV1.getD [], e.2 ≠ none) ∨ mapLen d.McpServers > 0) →
      LoadConfig json (.ok d) = .error (.error "mcpProxy is required")) :=
  ⟨by decide, fun json d hs hp hnn => LoadConfig_missing_proxy json d hs hp hnn⟩

/-- C14: a legacy-only document with a null entry in `clients` makes
`LoadConfig` panic on a nil dereference in `parseMCPClientConfigV1`; for every
legacy-only document whose `clients` entries are all non-null, `LoadConfig`
returns a Config whose backend names are exactly the names of the `clients`
entries that `parseMCPClientConfigV1` accepts, and it accepts a record exactly
when its type is one of "stdio", "sse", "streamable-http" and its payload
decodes for that type. -/
theorem C14_legacy_backends_kept_or_dropped :
    (docNullClient.DeprecatedServerV1 = some sampleServerV1 ∧ docNullClient.McpProxy = none ∧
      mapLen docNullClient.McpServers = 0 ∧
      LoadConfig tableUnmarshal (.ok docNullClient) = .error .nilDereference) ∧
    (∀ (json : Unmarshal) (d : FullConfig) (v1 : MCPProxyConfigV1),
      d.DeprecatedServerV1 = some v1 → d.McpProxy = none → mapLen d.McpServers = 0 →
      (∀ e ∈ d.DeprecatedClientsV1.getD [], e.2 ≠ none) →
      ∃ c, LoadConfig json (.ok d) = .ok c ∧
        ∀ n, n ∈ mapNames c.McpServers ↔
          ∃ e ∈ d.DeprecatedClientsV1.getD [], e.1 = n ∧
            ∃ info, parseMCPClientConfigV1 json e.2 = .ok info) ∧
    (∀ (json : Unmarshal) (cc : MCPClientConfigV1),
      (∃ info, parseMCPClientConfigV1 json (some cc) = .ok info) ↔
        ((cc.Type_ = MCPClientTypeStdio ∧ ∃ x, json.stdio cc.Config = .ok x) ∨
          (cc.Type_ = MCPClientTypeSSE ∧ ∃ x, json.sse cc.Config = .ok x) ∨
          (cc.Type_ = MCPClientTypeStreamable ∧ ∃ x, json.streamable cc.Config = .ok x))) ∧
    (LoadConfig tableUnmarshal (.ok docLegacy) = .ok configLegacy ∧
      mapNames docLegacy.DeprecatedClientsV1 = ["old", "bogus", "broken", "stream"] ∧
      mapNames configLegacy.McpServers = ["old", "stream"]) :=
  ⟨by decide,
    fun json d v1 hs hp hms hnn => LoadConfig_legacy_names json d v1 hs hp hms hnn,
    fun json cc => parseMCPClientConfigV1_ok_iff json cc,
    by decide⟩

/-- C15: a document with no legacy fields, mcpProxy present and a null entry in
mcpServers makes `LoadConfig` panic on a nil dereference in the cascade; for
every document with no legacy fields and mcpProxy present whose mcpServers
entries are all non-null, `LoadConfig` returns a Config whose proxy has the
input baseURL, addr, name and version, whose backend names are those of
mcpServers, and whose backends have the input transportType, command, args,
env, url, headers and timeout. -/
theorem C15_current_passthrough :
    (docNullServer.DeprecatedServerV1 = none ∧ docNullServer.DeprecatedClientsV1 = none ∧
      docNullServer.McpProxy = some sampleProxy ∧
      LoadConfig tableUnmarshal (.ok docNullServer) = .error .nilDereference) ∧
    (∀ (json : Unmarshal) (d : FullConfig) (p : MCPProxyConfigV2),
      d.DeprecatedServerV1 = none → d.DeprecatedClientsV1 = none → d.McpProxy = some p →
      (∀ e ∈ d.McpServers.getD [], e.2 ≠ none) →
      ∃ (c : Config) (p1 : MCPProxyConfigV2), LoadConfig json (.ok d) = .ok c ∧
        c.McpProxy = some p1 ∧ p1.BaseURL = p.BaseURL ∧ p1.Addr = p.Addr ∧
        p1.Name = p.Name ∧ p1.Version = p.Version ∧
        mapNames c.McpServers = mapNames d.McpServers ∧
        ∀ (i : Nat) (n : String) (b : MCPClientConfigV2),
          (d.McpServers.getD [])[i]? = some (n, some b) →
          ∃ b1 : MCPClientConfigV2, (c.McpServers.getD [])[i]? = some (n, some b1) ∧
            b1.TransportType = b.TransportType ∧ b1.Command = b.Command ∧
            b1.Args = b.Args ∧ b1.Env = b.Env ∧ b1.URL = b.URL ∧
            b1.Headers = b.Headers ∧ b1.Timeout = b.Timeout) := by
  refine ⟨by decide, ?_⟩
  intro json d p _ hcl hp hnn
  refine ⟨_, _, LoadConfig_current_passthrough json d p hcl hp hnn, rfl, rfl, rfl, rfl, rfl,
    mapNames_cascade _ _, ?_⟩
  intro i n b hi
  refine ⟨{ b with Options := some (cascadeOptions (proxyOptions p) b.Options) }, ?_,
    rfl, rfl, rfl, rfl, rfl, rfl, rfl⟩
  cases hm : d.McpServers with
  | none => simp [hm] at hi
  | some l =>
    rw [hm] at hi
    simp only [Option.getD_some] at hi
    simp [List.getElem?_map, hi, cascadeEntry]

/-- C16: a legacy "streamable-http" backend whose payload decodes to the
streamable variant is migrated to a record without transportType, which
`parseMCPClientConfigV2` resolves to the SSE variant: the variant changes and
the timeout is lost. Legacy stdio backends with a command and legacy sse
backends with a url do keep their variant and parameters. -/
theorem C16_streamable_migrates_to_sse :
    (parseMCPClientConfigV1 tableUnmarshal (some sampleStreamV1) =
        .ok (.streamable { URL := "http://c/mcp", Headers := none, Timeout := 5 }) ∧
      LoadConfig tableUnmarshal (.ok docLegacy) = .ok configLegacy ∧
      (configLegacy.McpServers.getD [])[1]? =
        some ("stream", some
          { URL := "http://c/mcp", Timeout := 5,
            Options := some { AuthTokens := some ["g"] } }) ∧
      parseMCPClientConfigV2 (some
          { URL := "http://c/mcp", Timeout := 5,
            Options := some { AuthTokens := some ["g"] } }) =
        .ok (.sse { URL := "http://c/mcp", Headers := none })) ∧
    (∀ (v : StreamableMCPClientConfig) (o : OptionsV2), v.URL ≠ "" →
      parseMCPClientConfigV2 (some (migratedClient (.streamable v) o)) =
        .ok (.sse { URL := v.URL, Headers := v.Headers })) ∧
    (∀ (v : StdioMCPClientConfig) (o : OptionsV2), v.Command ≠ "" →
      parseMCPClientConfigV2 (some (migratedClient (.stdio v) o)) = .ok (.stdio v)) ∧
    (∀ (v : SSEMCPClientConfig) (o : OptionsV2), v.URL ≠ "" →
      parseMCPClientConfigV2 (some (migratedClient (.sse v) o)) = .ok (.sse v)) := by
  have he1 : ("" : MCPClientType) ≠ MCPClientTypeStdio := by decide
  have he2 : ("" : MCPClientType) ≠ MCPClientTypeStreamable := by decide
  refine ⟨by decide, ?_, ?_, ?_⟩
  · intro v o hu
    simp [parseMCPClientConfigV2, migratedClient, hu, he1, he2]
  · intro v o hc
    simp [parseMCPClientConfigV2, migratedClient, hc]
  · intro v o hu
    simp [parseMCPClientConfigV2, migratedClient, hu, he1, he2]

/-- C20: `LoadConfig` is not total on documents with a null record: a null
entry in `clients` panics in `parseMCPClientConfigV1` on `conf.Type`, a null
entry in `mcpServers` panics in the cascade on `clientConfig.Options`. When no
entry of `clients` or `mcpServers` is null, `LoadConfig` does not panic. -/
theorem C20_null_record_panics :
    LoadConfig tableUnmarshal (.ok docNullClient) = .error .nilDereference ∧
    LoadConfig tableUnmarshal (.ok docNullServer) = .error .nilDereference ∧
    (∀ json : Unmarshal, parseMCPClientConfigV1 json none = .error .nilDereference) ∧
    (∀ proxy : OptionsV2, cascadeClient proxy none = .error .nilDereference) ∧
    (∀ (json : Unmarshal) (d : FullConfig),
      (∀ e ∈ d.DeprecatedClientsV1.getD [], e.2 ≠ none) →
      (∀ e ∈ d.McpServers.getD [], e.2 ≠ none) →
      LoadConfig json (.ok d) ≠ .error .nilDereference) :=
  ⟨by decide, by decide, fun _ => rfl, fun _ => rfl,
    fun json d hcl hsv => LoadConfig_no_panic json d hcl hsv⟩

/-! ## Precedence of the current schema over the legacy fields -/

theorem migrated_authTokens_of_global (proxy : OptionsV2) (v1 : MCPProxyConfigV1)
    (cc : MCPClientConfigV1) (hG : sliceLen v1.GlobalAuthTokens > 0) :
    (cascadeOptions proxy (some (migratedOptions (some v1) cc))).AuthTokens =
      some (cc.AuthTokens.getD [] ++ v1.GlobalAuthTokens.getD []) := by
  rw [cascadeOptions_authTokens]
  have hne : ¬ sliceLen v1.GlobalAuthTokens = 0 := by omega
  simp [migratedOptions, hG, goAppend, hne]

theorem migrateClients_of_no_migration (json : Unmarshal) (conf : FullConfig)
    (h : ¬ (mapLen conf.DeprecatedClientsV1 > 0 ∧ mapLen conf.McpServers = 0)) :
    migrateClients json conf = .ok conf := by
  unfold migrateClients
  rw [if_neg h]

theorem migrateClientLoop_nil_iff (json : Unmarshal) (server : Option MCPProxyConfigV1)
    (clients : List (String × Option MCPClientConfigV1))
    (out : List (String × Option MCPClientConfigV2))
    (h : migrateClientLoop json server [] clients = .ok out) :
    out = [] ↔
      ∀ e ∈ clients, ∃ cc f, e.2 = some cc ∧
        parseMCPClientConfigV1 json (some cc) = .error f := by
  have hnames := migrateClientLoop_names json server clients [] out h
  have hnn := migrateClientLoop_nonnil_of_ok json server clients [] out h
  constructor
  · intro hout e he
    cases hv : e.2 with
    | none => exact absurd hv (hnn e he)
    | some cc =>
      cases hp : parseMCPClientConfigV1 json (some cc) with
      | error f => exact ⟨cc, f, rfl, hp⟩
      | ok info =>
        exfalso
        have hmem : e.1 ∈ out.map Prod.fst :=
          (hnames e.1).mpr (Or.inr ⟨e, he, rfl, info, by rw [hv]; exact hp⟩)
        rw [hout] at hmem
        simp at hmem
  · intro hrej
    cases out with
    | nil => rfl
    | cons a l =>
      exfalso
      have hmem : a.1 ∈ (a :: l).map Prod.fst := by simp
      rcases (hnames a.1).mp hmem with h1 | ⟨e, he, -, info, hinfo⟩
      · simp at h1
      · obtain ⟨cc, f, hcc, hf⟩ := hrej e he
        rw [hcc, hf] at hinfo
        cases hinfo

/-- C2, as stated, fails: with a current proxy record and no current backend,
the legacy backend is migrated and receives the legacy global token, so the
Config differs from the one returned once `server` and `clients` are removed. -/
theorem C2_counterexample :
    docProxyWithLegacy.McpProxy = some sampleProxy ∧
      LoadConfig tableUnmarshal (.ok docProxyWithLegacy) =
        .ok { McpProxy := some { sampleProxy with Options := some {} }
              McpServers := some [("old", some
                { Command := "run.sh", Options := some { AuthTokens := some ["b", "g"] } })] } ∧
      LoadConfig tableUnmarshal (.ok (withoutLegacy docProxyWithLegacy)) =
        .ok { McpProxy := some { sampleProxy with Options := some {} }, McpServers := none } ∧
      LoadConfig tableUnmarshal (.ok docProxyWithLegacy) ≠
        LoadConfig tableUnmarshal (.ok (withoutLegacy docProxyWithLegacy)) := by
  decide

/-- C2, amended: for a document in which the current-shape mcpProxy record is
present, (a) the outcome of `LoadConfig` equals its outcome on the same
document with `server` and `clients` removed exactly when `clients` is empty,
or mcpServers has at least one entry, or mcpServers is the empty non-nil map
and every `clients` entry is a record that `parseMCPClientConfigV1` rejects;
(b) whenever `LoadConfig` returns a Config, it returns one for the document
with `server` and `clients` removed too, and both carry the same proxy record,
the input one with its options defaulted; (c) when `clients` is not empty and
mcpServers is empty, the legacy backends are still migrated: the backend names
of the returned Config are exactly the names of the `clients` entries that
`parseMCPClientConfigV1` accepts; and (d) such a migrated backend, the names of
`clients` being pairwise distinct, receives its own authTokens followed by the
legacy globalAuthTokens when `server` is present with at least one global
token. -/
theorem C2_current_schema_precedence (json : Unmarshal) (d : FullConfig)
    (p : MCPProxyConfigV2) (hp : d.McpProxy = some p) :
    (LoadConfig json (.ok d) = LoadConfig json (.ok (withoutLegacy d)) ↔
      (mapLen d.DeprecatedClientsV1 = 0 ∨ mapLen d.McpServers > 0 ∨
        (d.McpServers = some [] ∧
          ∀ e ∈ d.DeprecatedClientsV1.getD [], ∃ cc f, e.2 = some cc ∧
            parseMCPClientConfigV1 json (some cc) = .error f))) ∧
    (∀ c, LoadConfig json (.ok d) = .ok c →
      ∃ c1, LoadConfig json (.ok (withoutLegacy d)) = .ok c1 ∧
        c1.McpProxy = c.McpProxy ∧
        c.McpProxy = some { p with Options := some (proxyOptions p) }) ∧
    (mapLen d.DeprecatedClientsV1 > 0 → mapLen d.McpServers = 0 →
      ∀ c, LoadConfig json (.ok d) = .ok c →
        ∀ n, n ∈ mapNames c.McpServers ↔
          ∃ e ∈ d.DeprecatedClientsV1.getD [], e.1 = n ∧
            ∃ info, parseMCPClientConfigV1 json e.2 = .ok info) ∧
    (∀ (v1 : MCPProxyConfigV1) (cl : List (String × Option MCPClientConfigV1))
      (n : String) (cc : MCPClientConfigV1) (info : ClientInfo) (c : Config),
      d.DeprecatedServerV1 = some v1 → sliceLen v1.GlobalAuthTokens > 0 →
      d.DeprecatedClientsV1 = some cl → (cl.map Prod.fst).Nodup →
      mapLen d.McpServers = 0 → (n, some cc) ∈ cl →
      parseMCPClientConfigV1 json (some cc) = .ok info →
      LoadConfig json (.ok d) = .ok c →
      ∃ (out : List (String × Option MCPClientConfigV2)) (b1 : MCPClientConfigV2)
        (o1 : OptionsV2), c.McpServers = some out ∧ (n, some b1) ∈ out ∧
        b1.Options = some o1 ∧
        o1.AuthTokens = some (cc.AuthTokens.getD [] ++ v1.GlobalAuthTokens.getD [])) := by
  have hR : LoadConfig json (.ok (withoutLegacy d)) = cascade d :=
    LoadConfig_withoutLegacy json d p hp
  have hmp : migrateProxy d = d := migrateProxy_of_proxy d p hp
  refine ⟨?_, ?_, ?_, ?_⟩
  · by_cases hmig : mapLen d.DeprecatedClientsV1 > 0 ∧ mapLen d.McpServers = 0
    · have hnnd : ∀ s, d.McpServers = some s → ∀ e ∈ s, e.2 ≠ none :=
        mapLen_zero_nonnil _ hmig.2
      have hRok := cascade_of_nonnil d p hp hnnd
      rw [hR, hRok]
      constructor
      · intro heq
        right
        right
        obtain ⟨conf1, hm, hcas⟩ := LoadConfig_eq_ok json d _ heq
        rw [hmp] at hm
        rcases migrateClients_cases json d conf1 hm with ⟨-, -, out, hloop, hout⟩ | ⟨hc, -⟩
        · obtain ⟨p1, -, -, hcs, -⟩ := cascade_eq_ok conf1 _ hcas
          simp only at hcs
          rw [hout] at hcs
          cases hd : d.McpServers with
          | none => simp [hd] at hcs
          | some l =>
            have hl : l = [] := by
              have := mapLen_zero_getD _ hmig.2
              rw [hd] at this
              exact this
            subst hl
            simp [hd] at hcs
            exact ⟨rfl, (migrateClientLoop_nil_iff json _ _ out hloop).mp hcs⟩
        · exact absurd hmig hc
      · rintro (h0 | hpos | ⟨hnil, hrej⟩)
        · omega
        · omega
        · have hnn : ∀ e ∈ d.DeprecatedClientsV1.getD [], e.2 ≠ none := by
            intro e he hn
            obtain ⟨cc, f, hcc, -⟩ := hrej e he
            rw [hn] at hcc
            cases hcc
          obtain ⟨conf1, hm⟩ := migrateClients_of_nonnil json d hnn
          rcases migrateClients_cases json d conf1 hm with ⟨-, -, out, hloop, hout⟩ | ⟨hc, -⟩
          · have hout0 : out = [] := (migrateClientLoop_nil_iff json _ _ out hloop).mpr hrej
            subst hout0
            have hp1 : conf1.McpProxy = some p := by
              rw [migrateClients_McpProxy json d conf1 hm]
              exact hp
            have hnn1 : ∀ s, conf1.McpServers = some s → ∀ e ∈ s, e.2 ≠ none := by
              intro s hs1
              rw [hout] at hs1
              cases hs1
              simp
            have hm1 : migrateClients json (migrateProxy d) = .ok conf1 := by
              rw [hmp]
              exact hm
            rw [LoadConfig_of_migrate json d conf1 p hm1 hp1 hnn1, hout, hnil]
          · exact absurd hmig hc
    · have hL : LoadConfig json (.ok d) = cascade d := by
        simp only [LoadConfig, hmp, migrateClients_of_no_migration json d hmig]
      rw [hL, hR]
      simp only [true_iff]
      by_cases h0 : mapLen d.DeprecatedClientsV1 = 0
      · exact Or.inl h0
      · exact Or.inr (Or.inl (by omega))
  · intro c hc
    rw [hR]
    obtain ⟨conf1, hm, hcas⟩ := LoadConfig_eq_ok json d c hc
    rw [hmp] at hm
    have hp1 : conf1.McpProxy = some p := by
      rw [migrateClients_McpProxy json d conf1 hm]
      exact hp
    obtain ⟨p1, hp1a, hcp, -, -⟩ := cascade_eq_ok conf1 c hcas
    rw [hp1] at hp1a
    cases hp1a
    have hnn : ∀ s, d.McpServers = some s → ∀ e ∈ s, e.2 ≠ none := by
      by_cases hlen : mapLen d.McpServers > 0
      · rw [migrateClients_of_servers json d hlen] at hm
        cases hm
        exact (cascade_eq_ok d c hcas).choose_spec.2.2.2
      · exact mapLen_zero_nonnil _ (by omega)
    exact ⟨_, cascade_of_nonnil d p hp hnn, hcp.symm, hcp⟩
  · intro _ hms c hc n
    obtain ⟨conf1, hm, hcas⟩ := LoadConfig_eq_ok json d c hc
    rw [hmp] at hm
    obtain ⟨p1, -, -, hcs, -⟩ := cascade_eq_ok conf1 c hcas
    rw [hcs, mapNames_cascade]
    exact migrateClients_names json d conf1 hm hms n
  · intro v1 cl n cc info c hs hG hcl hnd hms hmem hdec hc
    obtain ⟨conf1, hm, hcas⟩ := LoadConfig_eq_ok json d c hc
    rw [hmp] at hm
    obtain ⟨p1, -, -, hcs, -⟩ := cascade_eq_ok conf1 c hcas
    have hfm := migrateClients_filterMap json d conf1 hm hms cl hcl
      (List.ne_nil_of_mem hmem) hnd
    rw [hs] at hfm
    rw [hfm] at hcs
    have hent : migratedEntry json (some v1) (n, some cc) =
        some (n, some (migratedClient info (migratedOptions (some v1) cc))) := by
      simp [migratedEntry, hdec]
    refine ⟨_, { migratedClient info (migratedOptions (some v1) cc) with
        Options := some (cascadeOptions (proxyOptions p1)
          (migratedClient info (migratedOptions (some v1) cc)).Options) },
      _, hcs, ?_, rfl, ?_⟩
    · apply List.mem_map.mpr
      exact ⟨_, List.mem_filterMap.mpr ⟨_, hmem, hent⟩, rfl⟩
    · rw [migratedClient_options]
      exact migrated_authTokens_of_global _ v1 cc hG

theorem C2_current_schema_precedence_witness :
    (docBothShapes.McpProxy = some sampleProxy ∧ mapLen docBothShapes.McpServers > 0 ∧
      LoadConfig tableUnmarshal (.ok docBothShapes) =
        LoadConfig tableUnmarshal (.ok (withoutLegacy docBothShapes))) ∧
    (docProxyWithLegacy.McpProxy = some sampleProxy ∧
      ∃ (out : List (String × Option MCPClientConfigV2)) (b1 : MCPClientConfigV2)
        (o1 : OptionsV2),
        (some [("old", some
          { Command := "run.sh", Options := some { AuthTokens := some ["b", "g"] } })] :
            GoMap (Option MCPClientConfigV2)) = some out ∧
        ("old", some b1) ∈ out ∧ b1.Options = some o1 ∧
        o1.AuthTokens = some (["b"] ++ ["g"])) :=
  ⟨⟨rfl, by decide,
      (C2_current_schema_precedence tableUnmarshal docBothShapes sampleProxy rfl).1.mpr
        (Or.inr (Or.inl (by decide)))⟩,
    ⟨rfl,
      (C2_current_schema_precedence tableUnmarshal docProxyWithLegacy sampleProxy rfl).2.2.2
        sampleServerV1 [("old", some sampleClientV1)] "old" sampleClientV1
        (.stdio { Command := "run.sh", Env := none, Args := none })
        { McpProxy := some { sampleProxy with Options := some {} }
          McpServers := some [("old", some
            { Command := "run.sh", Options := some { AuthTokens := some ["b", "g"] } })] }
        rfl (by decide) rfl (by decide) (by decide) (by decide) (by decide) (by decide)⟩⟩

end McpProxy
